import Mathlib

/-!
Verification development for the godaikin repository: a shallow embedding of
the attribute store (values.go), the translation tables, the tree-protocol
request codec and response walker (DaikinRequest.Serialize, findValueByPN,
getSwingState), the shared HTTP resource fetcher (BaseAppliance.getResource,
parseResponse), the multi-resource refresh loops, the BRP084 Set path and the
device factory (CreateDaikinDevice).

Modelling conventions:
- Go maps `map[string]V` are association lists `List (String × V)` with
  insert-overwrite (`ainsert`), delete (`adelete`) and lookup (`alookup`).
  Iteration order of a Go map is unspecified; wherever the source iterates a
  map the embedding takes the iteration order as an explicit list argument,
  and theorems add key-uniqueness hypotheses where the result could otherwise
  depend on the order.
- `time.Time` / `time.Duration` are modelled as `Int` (nanoseconds);
  `time.Now()` becomes an explicit `now : Int` argument at every operation
  that reads the clock, so `now.Sub(lastUpdate)` is exact integer subtraction.
- Fallible Go calls return `Option` / `Except`; the network transport is an
  explicit oracle argument.
-/

set_option maxHeartbeats 1000000

namespace Godaikin

/-- Association-list lookup, mirroring a Go map read `m[k]`. -/
def alookup {α : Type} (m : List (String × α)) (k : String) : Option α :=
  match m with
  | [] => none
  | (k0, x) :: t => if k0 = k then some x else alookup t k

/-- Association-list insert-overwrite, mirroring a Go map write `m[k] = x`. -/
def ainsert {α : Type} (m : List (String × α)) (k : String) (x : α) :
    List (String × α) :=
  match m with
  | [] => [(k, x)]
  | (k0, y) :: t => if k0 = k then (k, x) :: t else (k0, y) :: ainsert t k x

/-- Association-list removal, mirroring Go `delete(m, k)`. -/
def adelete {α : Type} (m : List (String × α)) (k : String) :
    List (String × α) :=
  match m with
  | [] => []
  | (k0, y) :: t => if k0 = k then adelete t k else (k0, y) :: adelete t k

theorem alookup_ainsert_self {α : Type} (m : List (String × α)) (k : String)
    (x : α) : alookup (ainsert m k x) k = some x := by
  induction m with
  | nil => simp [ainsert, alookup]
  | cons e t ih =>
    obtain ⟨k0, y⟩ := e
    by_cases h : k0 = k <;> simp [ainsert, alookup, h, ih]

theorem alookup_ainsert_ne {α : Type} (m : List (String × α)) {k k2 : String}
    (x : α) (h : k ≠ k2) : alookup (ainsert m k2 x) k = alookup m k := by
  induction m with
  | nil => simp [ainsert, alookup, Ne.symm h]
  | cons e t ih =>
    obtain ⟨k0, y⟩ := e
    by_cases h0 : k0 = k2
    · subst h0
      simp [ainsert, alookup, Ne.symm h]
    · simp [ainsert, alookup, h0, ih]

theorem alookup_adelete_self {α : Type} (m : List (String × α)) (k : String) :
    alookup (adelete m k) k = none := by
  induction m with
  | nil => simp [adelete, alookup]
  | cons e t ih =>
    obtain ⟨k0, y⟩ := e
    by_cases h : k0 = k <;> simp [adelete, alookup, h, ih]

theorem alookup_adelete_ne {α : Type} (m : List (String × α)) {k k2 : String}
    (h : k ≠ k2) : alookup (adelete m k2) k = alookup m k := by
  induction m with
  | nil => simp [adelete, alookup]
  | cons e t ih =>
    obtain ⟨k0, y⟩ := e
    by_cases h0 : k0 = k2
    · subst h0
      simp [adelete, alookup, Ne.symm h, ih]
    · simp [adelete, alookup, h0, ih]

theorem alookup_filter_of_pred {α : Type} (m : List (String × α))
    (p : String × α → Bool) {k : String} {x : α}
    (hl : alookup m k = some x) (hp : p (k, x) = true) :
    alookup (m.filter p) k = some x := by
  induction m with
  | nil => simp [alookup] at hl
  | cons e t ih =>
    obtain ⟨k0, y⟩ := e
    by_cases h0 : k0 = k
    · subst h0
      simp [alookup] at hl
      subst hl
      simp [List.filter, hp, alookup]
    · simp [alookup, h0] at hl
      by_cases hpe : p (k0, y) = true <;>
        simp [List.filter, hpe, alookup, h0, ih hl]

theorem alookup_filter_none {α : Type} (m : List (String × α))
    (p : String × α → Bool) {k : String} (hl : alookup m k = none) :
    alookup (m.filter p) k = none := by
  induction m with
  | nil => simp [List.filter, alookup]
  | cons e t ih =>
    obtain ⟨k0, y⟩ := e
    by_cases h0 : k0 = k
    · subst h0
      simp [alookup] at hl
    · simp [alookup, h0] at hl
      by_cases hpe : p (k0, y) = true <;>
        simp [List.filter, hpe, alookup, h0, ih hl]

theorem alookup_ainsert_isSome {α : Type} (m : List (String × α))
    (k k2 : String) (x : α) (h : (alookup m k).isSome) :
    (alookup (ainsert m k2 x) k).isSome := by
  by_cases hk : k = k2
  · subst hk
    simp [alookup_ainsert_self]
  · rwa [alookup_ainsert_ne m x hk]

theorem alookup_ainsert_cases {α : Type} (m : List (String × α))
    (k k2 : String) (x : α) (h : (alookup (ainsert m k2 x) k).isSome) :
    k = k2 ∨ (alookup m k).isSome := by
  by_cases hk : k = k2
  · exact Or.inl hk
  · rw [alookup_ainsert_ne m x hk] at h
    exact Or.inr h

/-- Generic fold of per-entry map writes, as done by the loop bodies of
`Values.UpdateByResource` and `Values.Update` in values.go. -/
def foldWrites {α : Type} (f : String × String → α)
    (l : List (String × String)) (m : List (String × α)) :
    List (String × α) :=
  l.foldl (fun acc e => ainsert acc e.1 (f e)) m

theorem foldWrites_nil {α : Type} (f : String × String → α)
    (m : List (String × α)) : foldWrites f [] m = m := rfl

theorem foldWrites_cons {α : Type} (f : String × String → α)
    (e : String × String) (l : List (String × String))
    (m : List (String × α)) :
    foldWrites f (e :: l) m = foldWrites f l (ainsert m e.1 (f e)) := rfl

theorem alookup_foldWrites_not_mem {α : Type} (f : String × String → α)
    (l : List (String × String)) (m : List (String × α)) {k : String}
    (hk : k ∉ l.map Prod.fst) :
    alookup (foldWrites f l m) k = alookup m k := by
  induction l generalizing m with
  | nil => rfl
  | cons e t ih =>
    simp only [List.map_cons, List.mem_cons] at hk
    push_neg at hk
    rw [foldWrites_cons, ih _ hk.2, alookup_ainsert_ne m (f e) hk.1]

theorem alookup_foldWrites_mem {α : Type} (f : String × String → α)
    (l : List (String × String)) (m : List (String × α)) {k : String}
    {x : String} (hnd : (l.map Prod.fst).Nodup) (hmem : (k, x) ∈ l) :
    alookup (foldWrites f l m) k = some (f (k, x)) := by
  induction l generalizing m with
  | nil => simp at hmem
  | cons e t ih =>
    simp only [List.map_cons, List.nodup_cons] at hnd
    rcases List.mem_cons.mp hmem with heq | hmem2
    · subst heq
      rw [foldWrites_cons,
        alookup_foldWrites_not_mem f t (ainsert m k (f (k, x))) hnd.1,
        alookup_ainsert_self]
    · rw [foldWrites_cons]
      exact ih (ainsert m e.1 (f e)) hnd.2 hmem2

theorem alookup_foldWrites_isSome_mono {α : Type} (f : String × String → α)
    (l : List (String × String)) (m : List (String × α)) {k : String}
    (h : (alookup m k).isSome) : (alookup (foldWrites f l m) k).isSome := by
  induction l generalizing m with
  | nil => exact h
  | cons e t ih =>
    rw [foldWrites_cons]
    exact ih _ (alookup_ainsert_isSome m k e.1 (f e) h)

theorem alookup_foldWrites_isSome_of_mem {α : Type} (f : String × String → α)
    (l : List (String × String)) (m : List (String × α)) {k : String}
    (h : k ∈ l.map Prod.fst) : (alookup (foldWrites f l m) k).isSome := by
  induction l generalizing m with
  | nil => simp at h
  | cons e t ih =>
    rw [foldWrites_cons]
    rw [List.map_cons] at h
    rcases List.mem_cons.mp h with heq | hin
    · apply alookup_foldWrites_isSome_mono
      subst heq
      simp [alookup_ainsert_self]
    · exact ih _ hin

theorem alookup_foldWrites_isSome_cases {α : Type} (f : String × String → α)
    (l : List (String × String)) (m : List (String × α)) {k : String}
    (h : (alookup (foldWrites f l m) k).isSome) :
    k ∈ l.map Prod.fst ∨ (alookup m k).isSome := by
  induction l generalizing m with
  | nil => exact Or.inr h
  | cons e t ih =>
    rw [foldWrites_cons] at h
    rcases ih _ h with hin | hsome
    · exact Or.inl (List.mem_cons_of_mem _ hin)
    · rcases alookup_ainsert_cases m k e.1 (f e) hsome with heq | hm
      · exact Or.inl (by simp [heq])
      · exact Or.inr hm

/-! ## Attribute store: `Values` (values.go)

One structure per `Values` field; the `sync.RWMutex` serialises every method,
so each method is a pure state transformer. -/

/-- The attribute store of values.go: key/value data, per-resource freshness
timestamps, per-key owning resource, and a fixed TTL (nanoseconds). -/
structure Values where
  data : List (String × String)
  lastUpdateByResource : List (String × Int)
  resourceByKey : List (String × String)
  ttl : Int
  deriving Repr, DecidableEq

/-- NewValues: empty store with a 15-minute TTL (Go `15 * time.Minute`,
expressed in nanoseconds as a `time.Duration` is). -/
def newValues : Values :=
  { data := [], lastUpdateByResource := [], resourceByKey := []
    ttl := 15 * 60 * 1000000000 }

/-- GetWithInvalidation (values.go): returns the value for `key`; when
`invalidate` is true and the key has a tracked owning resource, that
resource's freshness entry is deleted. -/
def Values.getWithInvalidation (v : Values) (key : String)
    (invalidate : Bool) : Option String × Values :=
  match alookup v.data key with
  | none => (none, v)
  | some value =>
    if invalidate then
      match alookup v.resourceByKey key with
      | some resource =>
        (some value,
          { v with
            lastUpdateByResource := adelete v.lastUpdateByResource resource })
      | none => (some value, v)
    else (some value, v)

/-- Get (values.go): `GetWithInvalidation(key, true)`. -/
def Values.get (v : Values) (key : String) : Option String × Values :=
  v.getWithInvalidation key true

/-- Set (values.go): direct write, no resource association. -/
def Values.set (v : Values) (key value : String) : Values :=
  { v with data := ainsert v.data key value }

/-- Delete (values.go): removes the key from both the value map and the
key-to-resource map. -/
def Values.delete (v : Values) (key : String) : Values :=
  { v with data := adelete v.data key
           resourceByKey := adelete v.resourceByKey key }

/-- Has (values.go). -/
def Values.hasKey (v : Values) (key : String) : Bool :=
  (alookup v.data key).isSome

/-- All (values.go): snapshot of the value map. -/
def Values.all (v : Values) : List (String × String) := v.data

/-- Len (values.go). -/
def Values.len (v : Values) : Nat := v.data.length

/-- ShouldResourceBeUpdated (values.go): first evicts every freshness entry
with `now - lastUpdate >= ttl`, then answers whether `resource` has no
freshness entry left. Returns the answer and the swept store. -/
def Values.shouldResourceBeUpdated (v : Values) (resource : String)
    (now : Int) : Bool × Values :=
  let swept := v.lastUpdateByResource.filter (fun e => decide (now - e.2 < v.ttl))
  ((alookup swept resource).isNone,
    { v with lastUpdateByResource := swept })

/-- UpdateByResource (values.go): merges `batch` into the value map, records
each key's owning resource, and stamps the resource's freshness to `now`.
`batch` is a Go map; the list fixes one iteration order. -/
def Values.updateByResource (v : Values) (resource : String)
    (batch : List (String × String)) (now : Int) : Values :=
  let merged := batch.foldl (fun acc e =>
    { acc with data := ainsert acc.data e.1 e.2
               resourceByKey := ainsert acc.resourceByKey e.1 resource }) v
  { merged with
    lastUpdateByResource := ainsert merged.lastUpdateByResource resource now }

/-- Update (values.go): merges `batch` into the value map only. -/
def Values.update (v : Values) (batch : List (String × String)) : Values :=
  { v with data := batch.foldl (fun acc e => ainsert acc e.1 e.2) v.data }

theorem updateByResource_proj (v : Values) (resource : String)
    (batch : List (String × String)) (now : Int) :
    (v.updateByResource resource batch now).data
        = foldWrites Prod.snd batch v.data
      ∧ (v.updateByResource resource batch now).resourceByKey
        = foldWrites (fun _ => resource) batch v.resourceByKey
      ∧ (v.updateByResource resource batch now).lastUpdateByResource
        = ainsert v.lastUpdateByResource resource now
      ∧ (v.updateByResource resource batch now).ttl = v.ttl := by
  have key : ∀ (w : Values),
      (batch.foldl (fun acc e =>
        { acc with data := ainsert acc.data e.1 e.2
                   resourceByKey := ainsert acc.resourceByKey e.1 resource })
        w).data = foldWrites Prod.snd batch w.data
      ∧ (batch.foldl (fun acc e =>
        { acc with data := ainsert acc.data e.1 e.2
                   resourceByKey := ainsert acc.resourceByKey e.1 resource })
        w).resourceByKey = foldWrites (fun _ => resource) batch w.resourceByKey
      ∧ (batch.foldl (fun acc e =>
        { acc with data := ainsert acc.data e.1 e.2
                   resourceByKey := ainsert acc.resourceByKey e.1 resource })
        w).lastUpdateByResource = w.lastUpdateByResource
      ∧ (batch.foldl (fun acc e =>
        { acc with data := ainsert acc.data e.1 e.2
                   resourceByKey := ainsert acc.resourceByKey e.1 resource })
        w).ttl = w.ttl := by
    induction batch with
    | nil => intro w; exact ⟨rfl, rfl, rfl, rfl⟩
    | cons e t ih =>
      intro w
      simpa [foldWrites_cons] using ih
        { w with data := ainsert w.data e.1 e.2
                 resourceByKey := ainsert w.resourceByKey e.1 resource }
  obtain ⟨h1, h2, h3, h4⟩ := key v
  simp only [Values.updateByResource]
  exact ⟨h1, h2, by rw [h3], h4⟩

/-- C2 helper: a non-invalidating read returns the plain data-map lookup. -/
theorem getWithInvalidation_false_fst (v : Values) (key : String) :
    (v.getWithInvalidation key false).1 = alookup v.data key := by
  unfold Values.getWithInvalidation
  cases alookup v.data key <;> simp

/-- C2 helper: the data map and key-to-resource map are untouched by an
invalidating read. -/
theorem getWithInvalidation_keeps_data (v : Values) (key : String)
    (b : Bool) :
    ((v.getWithInvalidation key b).2).data = v.data
      ∧ ((v.getWithInvalidation key b).2).resourceByKey = v.resourceByKey
      ∧ ((v.getWithInvalidation key b).2).ttl = v.ttl := by
  unfold Values.getWithInvalidation
  cases alookup v.data key with
  | none => exact ⟨rfl, rfl, rfl⟩
  | some value =>
    cases b with
    | false => exact ⟨rfl, rfl, rfl⟩
    | true =>
      cases alookup v.resourceByKey key with
      | none => exact ⟨rfl, rfl, rfl⟩
      | some r => exact ⟨rfl, rfl, rfl⟩

/-- C2: after `updateByResource(R, batch)` the resource is fresh
(`shouldRefresh` false); an invalidating read of one batch key flips it to
stale while a non-invalidating read of a sibling batch key still returns the
sibling's cached value; and an invalidating read only ever removes the
freshness entry of the read key's own owning resource. -/
theorem C2_invalidation_per_resource (v : Values) (R : String)
    (batch : List (String × String)) (now : Int) (a b va vb : String)
    (httl : 0 < v.ttl) (hnd : (batch.map Prod.fst).Nodup)
    (ha : (a, va) ∈ batch) (hb : (b, vb) ∈ batch) (hab : a ≠ b) :
    (((v.updateByResource R batch now).shouldResourceBeUpdated R now).1
        = false)
    ∧ ((((v.updateByResource R batch now).getWithInvalidation a true).2
          |>.shouldResourceBeUpdated R now).1 = true)
    ∧ ((((v.updateByResource R batch now).getWithInvalidation a true).2
          |>.getWithInvalidation b false).1 = some vb)
    ∧ (∀ (w : Values) (key S : String),
        alookup w.resourceByKey key ≠ some S →
        alookup ((w.getWithInvalidation key true).2).lastUpdateByResource S
          = alookup w.lastUpdateByResource S) := by
  obtain ⟨hdata, hrbk, hlast, httleq⟩ := updateByResource_proj v R batch now
  set v1 := v.updateByResource R batch now with hv1
  have hdata_a : alookup v1.data a = some va := by
    rw [hdata]; exact alookup_foldWrites_mem Prod.snd batch v.data hnd ha
  have hdata_b : alookup v1.data b = some vb := by
    rw [hdata]; exact alookup_foldWrites_mem Prod.snd batch v.data hnd hb
  have hrbk_a : alookup v1.resourceByKey a = some R := by
    rw [hrbk]
    exact alookup_foldWrites_mem (fun _ => R) batch v.resourceByKey hnd ha
  have hfresh : alookup v1.lastUpdateByResource R = some now := by
    rw [hlast]; exact alookup_ainsert_self _ _ _
  refine ⟨?_, ?_, ?_, ?_⟩
  · -- freshly stamped resource is not stale
    have hkeep : alookup
        (v1.lastUpdateByResource.filter (fun e => decide (now - e.2 < v1.ttl)))
        R = some now := by
      apply alookup_filter_of_pred _ _ hfresh
      simp only [decide_eq_true_eq, httleq]
      omega
    simp [Values.shouldResourceBeUpdated, hkeep]
  · -- invalidating read of `a` deletes R's freshness entry
    have hstep : ((v1.getWithInvalidation a true).2).lastUpdateByResource
        = adelete v1.lastUpdateByResource R := by
      simp [Values.getWithInvalidation, hdata_a, hrbk_a]
    have hgone : alookup
        (((v1.getWithInvalidation a true).2).lastUpdateByResource) R
        = none := by
      rw [hstep]; exact alookup_adelete_self _ _
    simp [Values.shouldResourceBeUpdated, alookup_filter_none _ _ hgone]
  · -- sibling read still cached
    obtain ⟨hd2, _, _⟩ := getWithInvalidation_keeps_data v1 a true
    rw [getWithInvalidation_false_fst, hd2, hdata_b]
  · -- locality: only the read key's owning resource is affected
    intro w key S hne
    unfold Values.getWithInvalidation
    cases hkv : alookup w.data key with
    | none => rfl
    | some value =>
      cases hrk : alookup w.resourceByKey key with
      | none => rfl
      | some R0 =>
        have : S ≠ R0 := by
          intro hEq
          exact hne (by rw [hrk, hEq])
        exact alookup_adelete_ne _ this

/-- C2 witness at a concrete store. -/
theorem C2_invalidation_per_resource_witness :
    (0 < newValues.ttl
      ∧ ([("a", "1"), ("b", "2")].map
          (Prod.fst (α := String) (β := String))).Nodup)
    ∧ ((((newValues.updateByResource "R" [("a", "1"), ("b", "2")] 0)
          |>.shouldResourceBeUpdated "R" 0).1 = false)
      ∧ ((((newValues.updateByResource "R" [("a", "1"), ("b", "2")] 0)
            |>.getWithInvalidation "a" true).2
            |>.shouldResourceBeUpdated "R" 0).1 = true)
      ∧ ((((newValues.updateByResource "R" [("a", "1"), ("b", "2")] 0)
            |>.getWithInvalidation "a" true).2
            |>.getWithInvalidation "b" false).1 = some "2")
      ∧ (∀ (w : Values) (key S : String),
          alookup w.resourceByKey key ≠ some S →
          alookup ((w.getWithInvalidation key true).2).lastUpdateByResource S
            = alookup w.lastUpdateByResource S)) :=
  ⟨⟨by decide, by decide⟩,
    C2_invalidation_per_resource newValues "R" [("a", "1"), ("b", "2")] 0
      "a" "b" "1" "2" (by decide) (by decide) (by decide) (by decide)
      (by decide)⟩

/-! ## C10: owned keys are always stored -/

/-- Store states reachable through the values.go operations. -/
inductive ReachableValues : Values → Prop where
  | base : ReachableValues newValues
  | setOp {v} (k x : String) :
      ReachableValues v → ReachableValues (v.set k x)
  | deleteOp {v} (k : String) :
      ReachableValues v → ReachableValues (v.delete k)
  | updateOp {v} (batch : List (String × String)) :
      ReachableValues v → ReachableValues (v.update batch)
  | updateByResourceOp {v} (R : String) (batch : List (String × String))
      (now : Int) :
      ReachableValues v → ReachableValues (v.updateByResource R batch now)
  | getOp {v} (k : String) (b : Bool) :
      ReachableValues v → ReachableValues ((v.getWithInvalidation k b).2)
  | shouldOp {v} (R : String) (now : Int) :
      ReachableValues v → ReachableValues ((v.shouldResourceBeUpdated R now).2)

/-- Invariant: every key with a tracked owning resource is present in the
value map. -/
def OwnedKeysStored (v : Values) : Prop :=
  ∀ k : String, (alookup v.resourceByKey k).isSome →
    (alookup v.data k).isSome

/-- C10: in every reachable state of the attribute store, every key in the
key-to-resource map is also present in the value map; the invariant is
established empty and preserved by set, delete, update, updateByResource and
both read accessors. -/
theorem C10_owned_keys_stored (v : Values) (h : ReachableValues v) :
    OwnedKeysStored v := by
  induction h with
  | base => intro k hk; simp [newValues, alookup] at hk
  | setOp k x _ ih =>
    intro k2 hk2
    exact alookup_ainsert_isSome _ _ _ _ (ih k2 hk2)
  | deleteOp k _ ih =>
    intro k2 hk2
    simp only [Values.delete] at hk2 ⊢
    by_cases hkk : k2 = k
    · subst hkk
      simp [alookup_adelete_self] at hk2
    · rw [alookup_adelete_ne _ hkk] at hk2
      rw [alookup_adelete_ne _ hkk]
      exact ih k2 hk2
  | updateOp batch _ ih =>
    intro k2 hk2
    exact alookup_foldWrites_isSome_mono Prod.snd batch _ (ih k2 hk2)
  | updateByResourceOp R batch now _ ih =>
    intro k2 hk2
    obtain ⟨hdata, hrbk, _, _⟩ := updateByResource_proj _ R batch now
    rw [hrbk] at hk2
    rw [hdata]
    rcases alookup_foldWrites_isSome_cases _ batch _ hk2 with hin | hold
    · exact alookup_foldWrites_isSome_of_mem _ batch _ hin
    · exact alookup_foldWrites_isSome_mono _ batch _ (ih k2 hold)
  | getOp k b _ ih =>
    intro k2 hk2
    obtain ⟨hd, hr, _⟩ := getWithInvalidation_keeps_data _ k b
    rw [hr] at hk2
    rw [hd]
    exact ih k2 hk2
  | shouldOp R now _ ih =>
    intro k2 hk2
    exact ih k2 hk2

/-- C10 witness at a concrete reachable store. -/
theorem C10_owned_keys_stored_witness :
    ReachableValues ((newValues.updateByResource "R" [("a", "1")] 0).set "k" "x")
    ∧ OwnedKeysStored ((newValues.updateByResource "R" [("a", "1")] 0).set "k" "x") :=
  ⟨ReachableValues.setOp "k" "x"
      (ReachableValues.updateByResourceOp "R" [("a", "1")] 0
        ReachableValues.base),
    C10_owned_keys_stored _
      (ReachableValues.setOp "k" "x"
        (ReachableValues.updateByResourceOp "R" [("a", "1")] 0
          ReachableValues.base))⟩

/-! ## Translation tables (daikin_brp072c.go `translateValue` /
`reverseTranslateValue`, tables from NewDaikinBRP069, NewDaikinBRP084,
NewDaikinAirBase) -/

/-- One dimension's wire-code → semantic-value table. -/
abbrev TranslationTable := List (String × String)

/-- Per-device-class translations: dimension → table. -/
abbrev DeviceTranslations := List (String × TranslationTable)

/-- translateValue (daikin_brp072c.go): decode a wire code; missing dimension
or missing code passes the input through unchanged. -/
def translateValue (tr : DeviceTranslations) (dimension value : String) :
    String :=
  match alookup tr dimension with
  | some table => (alookup table value).getD value
  | none => value

/-- reverseTranslateValue (daikin_brp072c.go): linear scan of the dimension's
table for the first wire code whose semantic value matches; missing dimension
or missing value passes the input through unchanged. Go iterates the table
map in unspecified order; the list order here is one such order, and the
roundtrip theorem shows each table is injective on semantic values, so the
result does not depend on the order. -/
def reverseTranslateValue (tr : DeviceTranslations) (dimension value : String) :
    String :=
  match alookup tr dimension with
  | some table =>
    match table.find? (fun e => e.2 == value) with
    | some e => e.1
    | none => value
  | none => value

/-- Translation tables installed by NewDaikinBRP069 (also used unchanged by
the BRP072C class, which wraps a BRP069). -/
def brp069Translations : DeviceTranslations :=
  [ ("mode",
      [("2", "dry"), ("3", "cool"), ("4", "hot"), ("6", "fan"),
       ("0", "auto"), ("1", "auto-1"), ("7", "auto-7"), ("10", "off")]),
    ("f_rate",
      [("A", "auto"), ("B", "silence"), ("3", "1"), ("4", "2"),
       ("5", "3"), ("6", "4"), ("7", "5")]),
    ("f_dir",
      [("0", "off"), ("1", "vertical"), ("2", "horizontal"), ("3", "3d")]),
    ("en_hol", [("0", "off"), ("1", "on")]),
    ("en_streamer", [("0", "off"), ("1", "on")]),
    ("adv",
      [("", "off"), ("2", "powerful"), ("2/13", "powerful streamer"),
       ("12", "econo"), ("12/13", "econo streamer"), ("13", "streamer")]),
    ("spmode_kind", [("0", "streamer"), ("1", "powerful"), ("2", "econo")]),
    ("spmode", [("0", "off"), ("1", "on")]) ]

/-- Translation tables installed by NewDaikinBRP084. -/
def brp084Translations : DeviceTranslations :=
  [ ("mode",
      [("0300", "auto"), ("0200", "cool"), ("0100", "heat"),
       ("0000", "fan"), ("0500", "dry"), ("00", "off"), ("01", "on")]),
    ("f_rate",
      [("0A00", "auto"), ("0B00", "quiet"), ("0300", "1"), ("0400", "2"),
       ("0500", "3"), ("0600", "4"), ("0700", "5")]),
    ("f_dir",
      [("off", "off"), ("vertical", "vertical"),
       ("horizontal", "horizontal"), ("both", "3d")]) ]

/-- Translation tables installed by NewDaikinAirBase. -/
def airbaseTranslations : DeviceTranslations :=
  [ ("mode",
      [("0", "fan"), ("1", "hot"), ("2", "cool"), ("3", "auto"),
       ("7", "dry")]),
    ("f_rate",
      [("0", "auto"), ("1", "low"), ("3", "mid"), ("5", "high"),
       ("1a", "low/auto"), ("3a", "mid/auto"), ("5a", "high/auto")]) ]

/-- Every device class defined in the source together with its translation
set (BRP072C shares the BRP069 tables by construction). -/
def allDeviceTranslations : List (String × DeviceTranslations) :=
  [ ("BRP069", brp069Translations), ("BRP072C", brp069Translations),
    ("BRP084", brp084Translations), ("AirBase", airbaseTranslations) ]

/-- C6: for every device class, every dimension, and every wire code
explicitly present in that dimension's table, encoding the decoded semantic
value returns the original wire code. -/
theorem C6_translation_roundtrip :
    ∀ devTr ∈ allDeviceTranslations, ∀ dimTable ∈ devTr.2,
      ∀ entry ∈ dimTable.2,
        reverseTranslateValue devTr.2 dimTable.1
          (translateValue devTr.2 dimTable.1 entry.1) = entry.1 := by
  decide

/-- C6 witness at one concrete device class, dimension and code. -/
theorem C6_translation_roundtrip_witness :
    (("BRP069", brp069Translations) ∈ allDeviceTranslations
      ∧ ("mode", [("2", "dry"), ("3", "cool"), ("4", "hot"), ("6", "fan"),
          ("0", "auto"), ("1", "auto-1"), ("7", "auto-7"), ("10", "off")])
          ∈ brp069Translations
      ∧ (("3", "cool") : String × String)
          ∈ [("2", "dry"), ("3", "cool"), ("4", "hot"), ("6", "fan"),
             ("0", "auto"), ("1", "auto-1"), ("7", "auto-7"), ("10", "off")])
    ∧ reverseTranslateValue brp069Translations "mode"
        (translateValue brp069Translations "mode" "3") = "3" :=
  ⟨⟨by decide, by decide, by decide⟩,
    C6_translation_roundtrip ("BRP069", brp069Translations) (by decide)
      ("mode", [("2", "dry"), ("3", "cool"), ("4", "hot"), ("6", "fan"),
        ("0", "auto"), ("1", "auto-1"), ("7", "auto-7"), ("10", "off")])
      (by decide) ("3", "cool") (by decide)⟩

/-! ## Shared resource fetcher (BaseAppliance.getResource) and response
parser (parseResponse) -/

/-- Error taxonomy of errors.go (ConnectionError, AuthenticationError,
ParseError). -/
inductive DaikinErr where
  | connection
  | authentication
  | parse
  deriving Repr, DecidableEq

/-- ASCII whitespace recognised by strings.TrimSpace (the source only ever
trims ASCII key/value text). -/
def isSpaceChar (c : Char) : Bool :=
  c = ' ' ∨ c = '\t' ∨ c = '\n' ∨ c = '\x0b' ∨ c = '\x0c' ∨ c = '\r'

/-- strings.TrimSpace. -/
def trimSpace (s : String) : String :=
  String.mk (((s.data.dropWhile isSpaceChar).reverse.dropWhile
    isSpaceChar).reverse)

/-- strings.SplitN(s, sep, 2): split at the first separator, if any. -/
def splitFirst (l : List Char) (sep : Char) :
    Option (List Char × List Char) :=
  match l with
  | [] => none
  | c :: t =>
    if c = sep then some ([], t)
    else (splitFirst t sep).map (fun p => (c :: p.1, p.2))

/-- Hexadecimal digit value. -/
def hexDigitVal (c : Char) : Option Nat :=
  if '0' ≤ c ∧ c ≤ '9' then some (c.toNat - 48)
  else if 'a' ≤ c ∧ c ≤ 'f' then some (c.toNat - 87)
  else if 'A' ≤ c ∧ c ≤ 'F' then some (c.toNat - 55)
  else none

/-- url.QueryUnescape on the byte level: decodes %XX escapes and turns
`+` into a space; a malformed escape is an error. -/
def queryUnescape (l : List Char) : Option (List Char) :=
  match l with
  | [] => some []
  | '%' :: h1 :: h2 :: t =>
    match hexDigitVal h1, hexDigitVal h2 with
    | some a, some b => (queryUnescape t).map (fun r => Char.ofNat (16 * a + b) :: r)
    | _, _ => none
  | '%' :: _ => none
  | '+' :: t => (queryUnescape t).map (fun r => ' ' :: r)
  | c :: t => (queryUnescape t).map (fun r => c :: r)

/-- parseResponse (the comma-separated `key=value` body parser): pairs
without `=` are skipped, keys and values are trimmed, a missing `ret` field
is a parse error, `ret` other than OK yields an empty (successful) result,
and a `name` field is URL-unescaped when that succeeds. -/
def parseResponse (body : String) : Except DaikinErr (List (String × String)) :=
  let pairs := body.splitOn ","
  let response := pairs.foldl (fun m pair =>
    match splitFirst pair.data '=' with
    | none => m
    | some (k, v) =>
      ainsert m (trimSpace (String.mk k)) (trimSpace (String.mk v))) []
  match alookup response "ret" with
  | none => .error .parse
  | some ret =>
    if ret ≠ "OK" then .ok []
    else
      let response2 := adelete response "ret"
      match alookup response2 "name" with
      | some name =>
        match queryUnescape name.data with
        | some decoded => .ok (ainsert response2 "name" (String.mk decoded))
        | none => .ok response2
      | none => .ok response2

/-- One HTTP exchange as seen by BaseAppliance.getResource: either the
request/transport layer failed outright, or a response with a status code
and a body came back. -/
inductive HTTPOutcome where
  | netFailure
  | response (status : Nat) (body : String)
  deriving Repr, DecidableEq

/-- Body handling of the 200 branch of BaseAppliance.getResource: one read
into a 4096-byte buffer (an empty body reads zero bytes, which the source
reports as a connection error), then parseResponse. -/
def decodeBody (body : String) : Except DaikinErr (List (String × String)) :=
  let readBody := String.mk (body.data.take 4096)
  if readBody.length = 0 then .error .connection
  else parseResponse readBody

/-- BaseAppliance.getResource status handling (daikin_brp072c.go): transport
error → ConnectionError; 403 → AuthenticationError; 404 → empty successful
map; any other non-200 → ConnectionError; 200 → decode the body. -/
def getResource (outcome : HTTPOutcome) :
    Except DaikinErr (List (String × String)) :=
  match outcome with
  | .netFailure => .error .connection
  | .response status body =>
    if status = 403 then .error .authentication
    else if status = 404 then .ok []
    else if status ≠ 200 then .error .connection
    else decodeBody body

/-- C8: for every exchange through the shared resource fetcher, 403 returns
an authentication failure, 404 returns an empty attribute map with no error,
any other non-200 status returns a connection failure, and only a 200 status
proceeds to body decoding. -/
theorem C8_status_mapping (status : Nat) (body : String) :
    (status = 403 →
      getResource (.response status body) = .error .authentication)
    ∧ (status = 404 → getResource (.response status body) = .ok [])
    ∧ (status ≠ 403 → status ≠ 404 → status ≠ 200 →
        getResource (.response status body) = .error .connection)
    ∧ (status = 200 → getResource (.response status body) = decodeBody body) := by
  refine ⟨?_, ?_, ?_, ?_⟩
  · intro h; subst h; rfl
  · intro h; subst h; rfl
  · intro h403 h404 h200
    simp [getResource, h403, h404, h200]
  · intro h; subst h; rfl

/-- C8 witness at concrete statuses and a concrete body. -/
theorem C8_status_mapping_witness :
    (getResource (.response 403 "ret=OK") = .error .authentication)
    ∧ (getResource (.response 404 "ret=OK") = .ok [])
    ∧ (getResource (.response 500 "ret=OK") = .error .connection)
    ∧ (getResource (.response 200 "ret=OK,type=aircon")
        = decodeBody "ret=OK,type=aircon") :=
  ⟨(C8_status_mapping 403 "ret=OK").1 rfl,
    (C8_status_mapping 404 "ret=OK").2.1 rfl,
    (C8_status_mapping 500 "ret=OK").2.2.1 (by decide) (by decide) (by decide),
    (C8_status_mapping 200 "ret=OK,type=aircon").2.2.2 rfl⟩

/-! ## Multi-resource refresh loops (DaikinBRP069.updateStatusWithResources,
DaikinAirBase.UpdateStatus) -/

/-- parseSpecialFields (DaikinBRP069): derives the combined `f_dir` from the
separate `f_dir_ud` / `f_dir_lr` parameters; unmatched combinations leave
the data unchanged. -/
def parseSpecialFields (data : List (String × String)) :
    List (String × String) :=
  match alookup data "f_dir_ud", alookup data "f_dir_lr" with
  | some ud, some lr =>
    if ud = "0" ∧ lr = "0" then ainsert data "f_dir" "0"
    else if ud = "S" ∧ lr = "0" then ainsert data "f_dir" "1"
    else if ud = "0" ∧ lr = "S" then ainsert data "f_dir" "2"
    else if ud = "S" ∧ lr = "S" then ainsert data "f_dir" "3"
    else data
  | _, _ => data

/-- The network as seen by a refresh loop: per resource either a fetched
attribute batch or an error (transport or decode). -/
abbrev ResourceOracle := String → Except DaikinErr (List (String × String))

/-- Result of one refresh pass: the updated store, the error value the Go
function returns (`nil` is `none`), and — as observable instrumentation —
the list of resources for which a fetch was actually issued. -/
structure RefreshResult where
  store : Values
  err : Option DaikinErr
  attempted : List String
  deriving Repr

/-- Staleness pre-filter of updateStatusWithResources: one
ShouldResourceBeUpdated call per resource (each call sweeps the freshness
map), collecting the stale ones in order. -/
def filterStale (v : Values) (now : Int) (resources : List String) :
    Values × List String :=
  resources.foldl (fun acc r =>
    let res := acc.1.shouldResourceBeUpdated r now
    (res.2, if res.1 then acc.2 ++ [r] else acc.2)) (v, [])

/-- Loop body of updateStatusWithResources: fetch each stale resource; a
failed fetch is logged and skipped (`continue`), a successful one is parsed
and merged by resource. -/
def refreshLoop (oracle : ResourceOracle) (now : Int)
    (toUpdate : List String) (v : Values) : Values × List String :=
  toUpdate.foldl (fun acc r =>
    match oracle r with
    | .error _ => (acc.1, acc.2 ++ [r])
    | .ok data =>
      (acc.1.updateByResource r (parseSpecialFields data) now, acc.2 ++ [r]))
    (v, [])

/-- DaikinBRP069.updateStatusWithResources: filter stale resources, return
nil immediately when none, otherwise fetch each one (skipping failures) and
return nil. -/
def updateStatusWithResources (v : Values) (oracle : ResourceOracle)
    (now : Int) (resources : List String) : RefreshResult :=
  let pre := filterStale v now resources
  if pre.2.isEmpty then { store := pre.1, err := none, attempted := [] }
  else
    let looped := refreshLoop oracle now pre.2 pre.1
    { store := looped.1, err := none, attempted := looped.2 }

/-- parseResponse special handling of DaikinAirBase (f_auto folds into
f_rate as a trailing `a`). -/
def airbaseParseSpecial (data : List (String × String)) :
    List (String × String) :=
  match alookup data "f_auto" with
  | some fa =>
    if fa = "1" then
      match alookup data "f_rate" with
      | some fr => ainsert data "f_rate" (fr ++ "a")
      | none => data
    else data
  | none => data

/-- INFO_RESOURCES of DaikinAirBase. -/
def airbaseInfoResources : List String :=
  ["aircon/get_sensor_info", "aircon/get_control_info",
   "aircon/get_zone_setting"]

/-- DaikinAirBase.UpdateStatus: per info resource (with the skyfi/ prefix),
check staleness inline, fetch, skip failures, merge successes; always
returns nil. -/
def airbaseUpdateStatus (v : Values) (oracle : ResourceOracle) (now : Int) :
    RefreshResult :=
  let looped := airbaseInfoResources.foldl (fun acc r =>
    let skyfiResource := "skyfi/" ++ r
    let res := acc.1.shouldResourceBeUpdated skyfiResource now
    if res.1 then
      match oracle skyfiResource with
      | .error _ => (res.2, acc.2 ++ [skyfiResource])
      | .ok data =>
        (res.2.updateByResource skyfiResource (airbaseParseSpecial data) now,
          acc.2 ++ [skyfiResource])
    else (res.2, acc.2)) (v, [])
  { store := looped.1, err := none, attempted := looped.2 }

theorem refreshLoop_attempted (oracle : ResourceOracle) (now : Int)
    (toUpdate : List String) (v : Values) (acc : List String) :
    (toUpdate.foldl (fun acc r =>
      match oracle r with
      | .error _ => (acc.1, acc.2 ++ [r])
      | .ok data =>
        (acc.1.updateByResource r (parseSpecialFields data) now,
          acc.2 ++ [r]))
      (v, acc)).2 = acc ++ toUpdate := by
  induction toUpdate generalizing v acc with
  | nil => simp
  | cons r t ih =>
    simp only [List.foldl_cons]
    cases oracle r with
    | error e => rw [ih]; simp
    | ok data => rw [ih]; simp

/-- C4 counterexample: a one-resource batch in which every resource fails —
the fetch is attempted, yet the refresh still reports success (`nil`),
contradicting the claim that failure of every resource surfaces a failure. -/
theorem C4_counterexample :
    (updateStatusWithResources newValues (fun _ => .error .connection) 0
        ["common/basic_info"]).attempted = ["common/basic_info"]
    ∧ (updateStatusWithResources newValues (fun _ => .error .connection) 0
        ["common/basic_info"]).err = none := by
  exact ⟨rfl, rfl⟩

/-- C4 (amended): during a multi-resource refresh a per-resource failure is
caught and the remaining stale resources are still attempted, and the
refresh always returns success — even when every resource in the batch
fails; no failure is ever surfaced. Stated for both refresh loops in the
source. -/
theorem C4_refresh_failures_not_surfaced (v : Values)
    (oracle : ResourceOracle) (now : Int) (resources : List String) :
    (updateStatusWithResources v oracle now resources).err = none
    ∧ (updateStatusWithResources v oracle now resources).attempted
        = (if (filterStale v now resources).2.isEmpty then []
           else (filterStale v now resources).2)
    ∧ (airbaseUpdateStatus v oracle now).err = none := by
  refine ⟨?_, ?_, ?_⟩
  · by_cases h : (filterStale v now resources).2.isEmpty <;>
      simp [updateStatusWithResources, h]
  · by_cases h : (filterStale v now resources).2.isEmpty
    · simp [updateStatusWithResources, h]
    · have key := refreshLoop_attempted oracle now
        (filterStale v now resources).2 (filterStale v now resources).1 []
      simp only [List.nil_append] at key
      simp [updateStatusWithResources, h, refreshLoop, key]
  · rfl

/-! ## Tree-protocol response walker (DaikinBRP084.findValueByPN) and swing
decode (DaikinBRP084.getSwingState) -/

/-- Decoded JSON value, as produced by encoding/json into `interface{}`
(numbers restricted to the integers the claims touch). -/
inductive JVal where
  | str : String → JVal
  | num : Int → JVal
  | arr : List JVal → JVal
  | obj : List (String × JVal) → JVal
  | null

mutual

/-- fmt.Sprintf with the `%v` verb, as applied by the BRP084 decoders; only
the string case is ever exercised by the wire values the claims are about. -/
def goFormatValue : JVal → String
  | .str s => s
  | .num n => toString n
  | .null => "<nil>"
  | .arr l => "[" ++ goFormatSeq l ++ "]"
  | .obj l => "map[" ++ goFormatFields l ++ "]"

def goFormatSeq : List JVal → String
  | [] => ""
  | [x] => goFormatValue x
  | x :: y :: t => goFormatValue x ++ " " ++ goFormatSeq (y :: t)

def goFormatFields : List (String × JVal) → String
  | [] => ""
  | [e] => e.1 ++ ":" ++ goFormatValue e.2
  | e :: f :: t => e.1 ++ ":" ++ goFormatValue e.2 ++ " " ++ goFormatFields (f :: t)

end

/-- Scan of the `responses` list in findValueByPN: the first entry that is an
object whose `fr` equals the requested endpoint and whose `pc` is an object
wins; entries matching `fr` without an object `pc` are passed over. -/
def getPC (responses : List JVal) (fr : String) :
    Option (List (String × JVal)) :=
  match responses with
  | [] => none
  | r :: t =>
    match r with
    | .obj fields =>
      match alookup fields "fr" with
      | some (.str s) =>
        if s = fr then
          match alookup fields "pc" with
          | some (.obj pc) => some pc
          | _ => getPC t fr
        else getPC t fr
      | _ => getPC t fr
    | _ => getPC t fr

/-- Within a node list, the first object whose `pn` matches, returning its
`pv` (Go reads `dataMap["pv"]`, so a missing `pv` yields nil). -/
def findPV (items : List JVal) (key : String) : Option JVal :=
  match items with
  | [] => none
  | i :: t =>
    match i with
    | .obj fields =>
      match alookup fields "pn" with
      | some (.str s) =>
        if s = key then some ((alookup fields "pv").getD .null)
        else findPV t key
      | _ => findPV t key
    | _ => findPV t key

/-- Within a node list, the first object whose `pn` matches and whose `pch`
is a list; a `pn` match without a `pch` list is passed over (the Go loop
continues without setting `found`). -/
def findPCH (items : List JVal) (key : String) : Option (List JVal) :=
  match items with
  | [] => none
  | i :: t =>
    match i with
    | .obj fields =>
      match alookup fields "pn" with
      | some (.str s) =>
        if s = key then
          match alookup fields "pch" with
          | some (.arr pch) => some pch
          | _ => findPCH t key
        else findPCH t key
      | _ => findPCH t key
    | _ => findPCH t key

/-- Key walk of findValueByPN: all keys but the last descend through `pch`;
the last key returns `pv`; a name absent at any level is an error. -/
def walkPN (items : List JVal) (keys : List String) : Except String JVal :=
  match keys with
  | [] => .error "value not found"
  | [k] =>
    match findPV items k with
    | some pv => .ok pv
    | none => .error ("key " ++ k ++ " not found")
  | k :: k2 :: rest =>
    match findPCH items k with
    | some pch => walkPN pch (k2 :: rest)
    | none => .error ("key " ++ k ++ " not found")

/-- findValueByPN (DaikinBRP084): locate the per-endpoint result document by
`fr`, then walk the named children. -/
def findValueByPN (data : JVal) (fr : String) (keys : List String) :
    Except String JVal :=
  match data with
  | .obj fields =>
    match alookup fields "responses" with
    | some (.arr responses) =>
      match getPC responses fr with
      | some pc => walkPN [.obj pc] keys
      | none => .error ("fr " ++ fr ++ " not found")
    | _ => .error "no responses found"
  | _ => .error "no responses found"

/-- API_PATHS swing_settings: per on-mode, the vertical and horizontal axis
paths, each a flat endpoint-then-child-names list as in the source. -/
def swingSettingsApi : List (String × (List String × List String)) :=
  [ ("auto",
      (["/dsiot/edge/adr_0100.dgc_status",
          "dgc_status", "e_1002", "e_3001", "p_20"],
        ["/dsiot/edge/adr_0100.dgc_status",
          "dgc_status", "e_1002", "e_3001", "p_21"])),
    ("cool",
      (["/dsiot/edge/adr_0100.dgc_status",
          "dgc_status", "e_1002", "e_3001", "p_05"],
        ["/dsiot/edge/adr_0100.dgc_status",
          "dgc_status", "e_1002", "e_3001", "p_06"])),
    ("heat",
      (["/dsiot/edge/adr_0100.dgc_status",
          "dgc_status", "e_1002", "e_3001", "p_07"],
        ["/dsiot/edge/adr_0100.dgc_status",
          "dgc_status", "e_1002", "e_3001", "p_08"])),
    ("fan",
      (["/dsiot/edge/adr_0100.dgc_status",
          "dgc_status", "e_1002", "e_3001", "p_24"],
        ["/dsiot/edge/adr_0100.dgc_status",
          "dgc_status", "e_1002", "e_3001", "p_25"])),
    ("dry",
      (["/dsiot/edge/adr_0100.dgc_status",
          "dgc_status", "e_1002", "e_3001", "p_22"],
        ["/dsiot/edge/adr_0100.dgc_status",
          "dgc_status", "e_1002", "e_3001", "p_23"])) ]

/-- Go test `s[0] == 'F'` guarded by `len(s) > 0`. -/
def startsWithF (s : String) : Bool :=
  match s.data with
  | c :: _ => c = 'F'
  | [] => false

/-- getSwingState (DaikinBRP084): off when the cached mode is empty or off
or has no swing settings or either axis lookup fails; otherwise combine the
two axis flags, an axis being enabled exactly when its formatted flag word
begins with the byte `F`. The mode read is `Values.Get`, an invalidating
read, so the (possibly updated) store is returned alongside. -/
def getSwingState (v : Values) (data : JVal) : String × Values :=
  let g := v.get "mode"
  let mode := g.1.getD ""
  let v1 := g.2
  if mode = "" ∨ mode = "off" then ("off", v1)
  else
    match alookup swingSettingsApi mode with
    | some paths =>
      match findValueByPN data paths.1.headI paths.1.tail,
          findValueByPN data paths.2.headI paths.2.tail with
      | .ok verticalVal, .ok horizontalVal =>
        let verticalStr := goFormatValue verticalVal
        let horizontalStr := goFormatValue horizontalVal
        let vertical := startsWithF verticalStr
        let horizontal := startsWithF horizontalStr
        if horizontal ∧ vertical then ("both", v1)
        else if horizontal then ("horizontal", v1)
        else if vertical then ("vertical", v1)
        else ("off", v1)
      | _, _ => ("off", v1)
    | none => ("off", v1)

/-- C7: whenever the cached operating mode is an on-mode with swing settings
and both axis flag words decode from the response, the combined swing state
is `both` when both flag words begin with the nibble F, `horizontal` or
`vertical` when exactly that axis's flag word does, and `off` when neither
does; in particular vertical `F00000` with horizontal `000000` decodes as
`vertical`, both `F00000` as `both`, and both `000000` as `off`. -/
theorem C7_swing_decode (v : Values) (data : JVal) (mode vs hs : String)
    (vpath hpath : List String)
    (hmode : (v.get "mode").1 = some mode)
    (hm : mode ∈ ["auto", "cool", "heat", "fan", "dry"])
    (hpaths : alookup swingSettingsApi mode = some (vpath, hpath))
    (hv : findValueByPN data vpath.headI vpath.tail = .ok (.str vs))
    (hh : findValueByPN data hpath.headI hpath.tail = .ok (.str hs)) :
    (getSwingState v data).1 =
      if startsWithF hs ∧ startsWithF vs then "both"
      else if startsWithF hs then "horizontal"
      else if startsWithF vs then "vertical"
      else "off" := by
  have hm2 : mode = "auto" ∨ mode = "cool" ∨ mode = "heat" ∨ mode = "fan"
      ∨ mode = "dry" := by simpa using hm
  have hne1 : mode ≠ "" := by
    rcases hm2 with h | h | h | h | h <;> subst h <;> decide
  have hne2 : mode ≠ "off" := by
    rcases hm2 with h | h | h | h | h <;> subst h <;> decide
  simp only [getSwingState, hmode, Option.getD_some, hne1, hne2,
    hpaths, hv, hh, goFormatValue, or_self, if_false, reduceIte]
  split_ifs <;> rfl

/-- C7 witness: a concrete response in auto mode with vertical flag F00000
and horizontal flag 000000 decodes as `vertical`. -/
theorem C7_swing_decode_witness :
    (((newValues.set "mode" "auto").get "mode").1 = some "auto"
      ∧ "auto" ∈ ["auto", "cool", "heat", "fan", "dry"])
    ∧ (getSwingState (newValues.set "mode" "auto")
        (JVal.obj [("responses", .arr [
          .obj [("fr", .str "/dsiot/edge/adr_0100.dgc_status"),
            ("pc", .obj [("pn", .str "dgc_status"), ("pch", .arr [
              .obj [("pn", .str "e_1002"), ("pch", .arr [
                .obj [("pn", .str "e_3001"), ("pch", .arr [
                  .obj [("pn", .str "p_20"), ("pv", .str "F00000")],
                  .obj [("pn", .str "p_21"), ("pv", .str "000000")]])]])]])])]])])).1
      = "vertical" := by
  refine ⟨⟨rfl, by decide⟩, ?_⟩
  have := C7_swing_decode (newValues.set "mode" "auto")
    (JVal.obj [("responses", .arr [
      .obj [("fr", .str "/dsiot/edge/adr_0100.dgc_status"),
        ("pc", .obj [("pn", .str "dgc_status"), ("pch", .arr [
          .obj [("pn", .str "e_1002"), ("pch", .arr [
            .obj [("pn", .str "e_3001"), ("pch", .arr [
              .obj [("pn", .str "p_20"), ("pv", .str "F00000")],
              .obj [("pn", .str "p_21"), ("pv", .str "000000")]])]])]])])]])])
    "auto" "F00000" "000000"
    ["/dsiot/edge/adr_0100.dgc_status",
      "dgc_status", "e_1002", "e_3001", "p_20"]
    ["/dsiot/edge/adr_0100.dgc_status",
      "dgc_status", "e_1002", "e_3001", "p_21"]
    rfl (by decide) rfl rfl rfl
  rw [this]
  rfl

/-! ## Tree-protocol request codec (DaikinRequest.Serialize)

Serialize mutates `map[string]interface{}` and `[]map[string]interface{}`
values. Maps are embedded by value: every map the function touches is only
ever written through the one variable that created it (`payload` at the
end; the inner request/branch maps are never written after construction),
so aliased reads always see an equal value. Slices are embedded as
references (backing-array id, length, capacity) into an explicit array
heap, because Go's append-without-reassignment semantics is exactly what
the function's observable behaviour turns on: every `pch` starts as a
zero-capacity literal, so `append` allocates a fresh backing array and the
slice header stored in the enclosing map keeps length zero. -/

/-- Go runtime value as flowing through Serialize. -/
inductive GVal where
  | vstr : String → GVal
  | vint : Int → GVal
  | vmap : List (String × GVal) → GVal
  | vslice (arr len cap : Nat) : GVal

/-- Heap of slice backing arrays. Each array stores its first `len` live
elements (capacity is tracked in the slice header). -/
structure SliceHeap where
  arrs : List (Nat × List GVal)
  next : Nat

def hlookup (l : List (Nat × List GVal)) (k : Nat) : Option (List GVal) :=
  match l with
  | [] => none
  | (k0, x) :: t => if k0 = k then some x else hlookup t k

def hset (l : List (Nat × List GVal)) (k : Nat) (x : List GVal) :
    List (Nat × List GVal) :=
  match l with
  | [] => [(k, x)]
  | (k0, y) :: t => if k0 = k then (k, x) :: t else (k0, y) :: hset t k x

def SliceHeap.readArr (h : SliceHeap) (id : Nat) : List GVal :=
  (hlookup h.arrs id).getD []

def SliceHeap.writeArr (h : SliceHeap) (id : Nat) (contents : List GVal) :
    SliceHeap :=
  { h with arrs := hset h.arrs id contents }

def SliceHeap.alloc (h : SliceHeap) (contents : List GVal) :
    Nat × SliceHeap :=
  (h.next, { arrs := hset h.arrs h.next contents, next := h.next + 1 })

/-- A fresh `[]map[string]interface{}{}` literal: length 0, capacity 0. -/
def newEmptySlice (h : SliceHeap) : GVal × SliceHeap :=
  let res := h.alloc []
  (.vslice res.1 0 0, res.2)

/-- The live elements a slice header denotes. -/
def readSlice (h : SliceHeap) (s : GVal) : List GVal :=
  match s with
  | .vslice arr len _ => (h.readArr arr).take len
  | _ => []

/-- Go `append(s, x)`: write in place when spare capacity exists, otherwise
allocate a grown backing array (doubling from 1); either way only the
returned slice header carries the new length. -/
def sliceAppend (h : SliceHeap) (s x : GVal) : GVal × SliceHeap :=
  match s with
  | .vslice arr len cap =>
    if len < cap then
      let contents := h.readArr arr
      let contents2 :=
        if contents.length ≤ len then contents ++ [x]
        else contents.set len x
      (.vslice arr (len + 1) cap, h.writeArr arr contents2)
    else
      let newCap := if cap = 0 then 1 else 2 * cap
      let res := h.alloc ((h.readArr arr).take len ++ [x])
      (.vslice res.1 (len + 1) newCap, res.2)
  | _ => (s, h)

/-- DaikinAttribute (part of the BRP084 codec); `Value` is an
`interface{}` in Go but every call site passes a string. -/
structure DaikinAttribute where
  name : String
  value : String
  path : List String
  toEp : String

/-- DaikinAttribute.Format. -/
def DaikinAttribute.format (a : DaikinAttribute) : GVal :=
  .vmap [("pn", .vstr a.name), ("pv", .vstr a.value)]

/-- Test of the getExistingTo closure: a request map whose `to` field
exists and equals the target endpoint (a non-string comparison with a Go
string is false). -/
def reqMatchesTo (toEp : String) (r : GVal) : Bool :=
  match r with
  | .vmap fields =>
    match alookup fields "to" with
    | some (.vstr s) => s = toEp
    | _ => false
  | _ => false

/-- getExistingTo closure in Serialize: first request map whose `to` equals
the target endpoint. -/
def getExistingTo (toEp : String) (reqs : List GVal) : Option GVal :=
  reqs.find? (reqMatchesTo toEp)

/-- getExistingIndex closure in Serialize: index of the first child map
whose `pn` equals the segment name, if any (Go returns -1 otherwise). -/
def getExistingIndex (name : String) (children : List GVal) : Option Nat :=
  children.findIdx? (fun child =>
    match child with
    | .vmap fields =>
      match alookup fields "pn" with
      | some (.vstr s) => s = name
      | _ => false
    | _ => false)

/-- Path-segment loop of Serialize. At a missing segment it builds a branch
node with a fresh empty `pch`, appends it to the local `entry` slice — the
appended header is immediately discarded, exactly as the Go code reassigns
`entry` on the next line — and descends into the new branch's `pch`. A
failed type assertion (Go panic) is `none`. -/
def walkPath (h : SliceHeap) (entry : GVal) (path : List String) :
    Option (SliceHeap × GVal) :=
  match path with
  | [] => some (h, entry)
  | pn :: rest =>
    let children := readSlice h entry
    match getExistingIndex pn children with
    | none =>
      let res := newEmptySlice h
      let newEntry := GVal.vmap [("pn", .vstr pn), ("pch", res.1)]
      let res2 := sliceAppend res.2 entry newEntry
      walkPath res2.2 res.1 rest
    | some index =>
      match children.get? index with
      | some (.vmap fields) =>
        match alookup fields "pch" with
        | some (pch@(.vslice _ _ _)) => walkPath h pch rest
        | _ => none
      | _ => none

/-- Branch-and-leaf part of Serialize's loop body, applied to a located or
freshly created request entry `toMap`: read `entry := to["pc"]["pch"]`
(each failed type assertion is a Go panic, `none`), walk the path segments,
then append the leaf under the deepest branch — again through a discarded
slice header, as in the source. -/
def serializeInto (h : SliceHeap) (requests toMap : GVal)
    (attr : DaikinAttribute) : Option (SliceHeap × GVal) :=
  match toMap with
  | .vmap fields =>
    match alookup fields "pc" with
    | some (.vmap pcFields) =>
      match alookup pcFields "pch" with
      | some (entrySlice@(.vslice _ _ _)) =>
        match walkPath h entrySlice attr.path with
        | some res3 =>
          let res4 := sliceAppend res3.1 res3.2 attr.format
          some (res4.2, requests)
        | none => none
      | _ => none
    | _ => none
  | _ => none

/-- Per-attribute body of Serialize's main loop: reuse an existing
top-level request entry for the endpoint, or build one (with `op` 3, a
`dgc_status` container, and an empty `pch`) and append it to the requests
slice; then place the leaf. -/
def serializeStep (h : SliceHeap) (requests : GVal)
    (attr : DaikinAttribute) : Option (SliceHeap × GVal) :=
  match getExistingTo attr.toEp (readSlice h requests) with
  | some toMap => serializeInto h requests toMap attr
  | none =>
    let res := newEmptySlice h
    let newRequest := GVal.vmap
      [("op", .vint 3),
       ("pc", .vmap [("pn", .vstr "dgc_status"), ("pch", res.1)]),
       ("to", .vstr attr.toEp)]
    let res2 := sliceAppend res.2 requests newRequest
    serializeInto res2.2 res2.1 newRequest attr

/-- DaikinRequest.Serialize with a nil payload (the only way the repository
calls it): start from `{"requests": []}`, process each attribute, then
store the final `requests` slice back into the payload map. -/
def serializePayload (attrs : List DaikinAttribute) :
    Option (SliceHeap × GVal) :=
  let h0 : SliceHeap := { arrs := [], next := 0 }
  let init := newEmptySlice h0
  (attrs.foldlM (fun st attr => serializeStep st.1 st.2 attr)
      (init.2, init.1)).map
    (fun st => (st.1, GVal.vmap [("requests", st.2)]))

/-- Top-level request entries of a serialized payload. -/
def payloadRequestList (h : SliceHeap) (payload : GVal) : List GVal :=
  match payload with
  | .vmap fields =>
    match alookup fields "requests" with
    | some s => readSlice h s
    | none => []
  | _ => []

/-- Endpoints of the top-level request entries, in order. -/
def requestTos (h : SliceHeap) (payload : GVal) : List String :=
  (payloadRequestList h payload).filterMap (fun r =>
    match r with
    | .vmap fields =>
      match alookup fields "to" with
      | some (.vstr s) => some s
      | _ => none
    | _ => none)

/-- The serialized `pc.pch` children of the request entry for an endpoint:
the branch/leaf forest the device would receive. -/
def requestPchContents (h : SliceHeap) (payload : GVal) (toEp : String) :
    Option (List GVal) :=
  match getExistingTo toEp (payloadRequestList h payload) with
  | some (.vmap fields) =>
    match alookup fields "pc" with
    | some (.vmap pcFields) =>
      match alookup pcFields "pch" with
      | some s => some (readSlice h s)
      | _ => none
    | _ => none
  | _ => none

/-- Two writes sharing the endpoint and the full path prefix, as built by
handlePowerSetting (mode) and handleTemperatureSetting (cool target
temperature). -/
def c1AttrMode : DaikinAttribute :=
  { name := "p_01", value := "0200", path := ["e_1002", "e_3001"],
    toEp := "/dsiot/edge/adr_0100.dgc_status" }

def c1AttrTemp : DaikinAttribute :=
  { name := "p_02", value := "30", path := ["e_1002", "e_3001"],
    toEp := "/dsiot/edge/adr_0100.dgc_status" }

/-- C1: serializing two writes that share an endpoint and path prefix does
produce exactly one top-level entry for that endpoint — but the entry's
serialized `pch` is empty: neither the shared branches nor the two leaves
survive, because every append lands in a freshly allocated backing array
whose header is never stored back into the request maps. This contradicts
the claim that every supplied leaf appears under the branch reached by its
path. -/
theorem C1_serialize_drops_leaves :
    (serializePayload [c1AttrMode, c1AttrTemp]).map
        (fun st => (requestTos st.1 st.2,
          requestPchContents st.1 st.2 "/dsiot/edge/adr_0100.dgc_status"))
      = some (["/dsiot/edge/adr_0100.dgc_status"], some []) := by
  rfl

/-! ## Serialize never fails on the request lists the BRP084 command path
builds (groundwork for C9) -/

theorem hlookup_hset_self (l : List (Nat × List GVal)) (k : Nat)
    (x : List GVal) : hlookup (hset l k x) k = some x := by
  induction l with
  | nil => simp [hset, hlookup]
  | cons e t ih =>
    obtain ⟨k0, y⟩ := e
    by_cases h : k0 = k <;> simp [hset, hlookup, h, ih]

theorem hlookup_hset_ne (l : List (Nat × List GVal)) {k k2 : Nat}
    (x : List GVal) (h : k ≠ k2) : hlookup (hset l k2 x) k = hlookup l k := by
  induction l with
  | nil => simp [hset, hlookup, Ne.symm h]
  | cons e t ih =>
    obtain ⟨k0, y⟩ := e
    by_cases h0 : k0 = k2
    · subst h0
      simp [hset, hlookup, Ne.symm h]
    · simp [hset, hlookup, h0, ih]

theorem alloc_next (h : SliceHeap) (c : List GVal) :
    (h.alloc c).2.next = h.next + 1 := rfl

theorem alloc_read_old (h : SliceHeap) (c : List GVal) {id : Nat}
    (hid : id < h.next) : (h.alloc c).2.readArr id = h.readArr id := by
  simp only [SliceHeap.alloc, SliceHeap.readArr]
  rw [hlookup_hset_ne _ _ (Nat.ne_of_lt hid)]

theorem alloc_read_new (h : SliceHeap) (c : List GVal) :
    (h.alloc c).2.readArr h.next = c := by
  simp only [SliceHeap.alloc, SliceHeap.readArr]
  rw [hlookup_hset_self]
  rfl

/-- walkPath, entered at a zero-length zero-capacity slice (as every `pch`
header in a request map is), always succeeds, only allocates fresh arrays,
and ends at another zero-length zero-capacity slice. -/
theorem walkPath_zero (path : List String) :
    ∀ (h : SliceHeap) (arr : Nat), ∃ (h2 : SliceHeap) (arr2 : Nat),
      walkPath h (.vslice arr 0 0) path = some (h2, .vslice arr2 0 0)
        ∧ h.next ≤ h2.next
        ∧ ∀ id, id < h.next → h2.readArr id = h.readArr id := by
  induction path with
  | nil =>
    intro h arr
    exact ⟨h, arr, rfl, Nat.le_refl _, fun id _ => rfl⟩
  | cons pn rest ih =>
    intro h arr
    have hchildren : readSlice h (.vslice arr 0 0) = [] := by
      simp [readSlice]
    have hidx : getExistingIndex pn (readSlice h (.vslice arr 0 0)) = none := by
      rw [hchildren]; rfl
    -- the step allocates the new pch array and the discarded grown entry
    obtain ⟨h2, arr2, hrec, hnext, hpres⟩ := ih
      ((h.alloc []).2.alloc [GVal.vmap [("pn", .vstr pn),
        ("pch", .vslice h.next 0 0)]]).2 h.next
    refine ⟨h2, arr2, ?_, ?_, ?_⟩
    · simp only [walkPath, hidx, newEmptySlice, sliceAppend]
      simpa [readSlice] using hrec
    · calc h.next ≤ h.next + 2 := by omega
        _ = ((h.alloc []).2.alloc _).2.next := by simp [alloc_next]
        _ ≤ h2.next := hnext
    · intro id hid
      rw [hpres id (by simp [alloc_next]; omega)]
      rw [alloc_read_old _ _ (by simp [alloc_next]; omega),
        alloc_read_old _ _ hid]

/-- Shape of one serialized top-level request map: its `pc` is an object
whose `pch` header is a zero-length zero-capacity slice. -/
def WFReq (r : GVal) : Prop :=
  ∃ fields pcFields pchArr, r = GVal.vmap fields
    ∧ alookup fields "pc" = some (.vmap pcFields)
    ∧ alookup pcFields "pch" = some (.vslice pchArr 0 0)

/-- Invariant of the `requests` slice threaded through Serialize's loop. -/
def ReqInv (h : SliceHeap) (requests : GVal) : Prop :=
  ∃ arr len cap, requests = GVal.vslice arr len cap
    ∧ arr < h.next
    ∧ (h.readArr arr).length = len
    ∧ len ≤ cap
    ∧ ∀ r ∈ h.readArr arr, WFReq r

theorem getExistingTo_mem (toEp : String) (reqs : List GVal) (r : GVal)
    (h : getExistingTo toEp reqs = some r) : r ∈ reqs :=
  List.mem_of_find?_eq_some h

/-- Appending a well-formed request map to a requests slice that satisfies
the invariant keeps the invariant, does not shrink the heap, and leaves
older arrays other than the requests backing array untouched. -/
theorem sliceAppend_req (h : SliceHeap) (requests x : GVal)
    (hinv : ReqInv h requests) (hx : WFReq x) :
    ReqInv (sliceAppend h requests x).2 (sliceAppend h requests x).1
      ∧ h.next ≤ (sliceAppend h requests x).2.next := by
  obtain ⟨arr, len, cap, hreq, harr, hlen, hlc, hwf⟩ := hinv
  subst hreq
  by_cases hcase : len < cap
  · have hcl : (h.readArr arr).length ≤ len := by omega
    have hres : sliceAppend h (.vslice arr len cap) x
        = (.vslice arr (len + 1) cap,
            h.writeArr arr (h.readArr arr ++ [x])) := by
      simp [sliceAppend, hcase, hcl]
    rw [hres]
    refine ⟨⟨arr, len + 1, cap, rfl, harr, ?_, by omega, ?_⟩, Nat.le_refl _⟩
    · simp only [SliceHeap.writeArr, SliceHeap.readArr]
      rw [hlookup_hset_self]
      simp only [SliceHeap.readArr] at hlen
      simp [hlen]
    · intro r hr
      simp only [SliceHeap.writeArr, SliceHeap.readArr] at hr
      rw [hlookup_hset_self] at hr
      rcases List.mem_append.mp hr with hold | hnew
      · exact hwf r hold
      · rw [List.mem_singleton.mp hnew]
        exact hx
  · have htk : (h.readArr arr).take len = h.readArr arr := by
      rw [List.take_of_length_le (by omega)]
    have hres : sliceAppend h (.vslice arr len cap) x
        = (.vslice h.next (len + 1) (if cap = 0 then 1 else 2 * cap),
            (h.alloc (h.readArr arr ++ [x])).2) := by
      simp only [sliceAppend, if_neg hcase, htk]
      rfl
    rw [hres]
    refine ⟨⟨h.next, len + 1, if cap = 0 then 1 else 2 * cap, rfl, ?_, ?_, ?_, ?_⟩, ?_⟩
    · simp [alloc_next]
    · rw [alloc_read_new]
      simp [hlen]
    · have hec : len = cap := by omega
      by_cases hc0 : cap = 0 <;> simp [hc0] <;> omega
    · intro r hr
      rw [alloc_read_new] at hr
      rcases List.mem_append.mp hr with hold | hnew
      · exact hwf r hold
      · rw [List.mem_singleton.mp hnew]
        exact hx
    · simp [alloc_next]

/-- The requests invariant survives any heap growth that leaves the old
arrays in place. -/
theorem ReqInv_mono (h h2 : SliceHeap) (requests : GVal)
    (hinv : ReqInv h requests) (hnext : h.next ≤ h2.next)
    (hpres : ∀ id, id < h.next → h2.readArr id = h.readArr id) :
    ReqInv h2 requests := by
  obtain ⟨arr, len, cap, hreq, harr, hlen, hlc, hwf⟩ := hinv
  refine ⟨arr, len, cap, hreq, by omega, ?_, hlc, ?_⟩
  · rw [hpres arr harr]; exact hlen
  · rw [hpres arr harr]; exact hwf

/-- Appending to a zero-length zero-capacity slice only allocates. -/
theorem sliceAppend_zero (h : SliceHeap) (arr2 : Nat) (x : GVal) :
    (sliceAppend h (.vslice arr2 0 0) x).2.next = h.next + 1
      ∧ ∀ id, id < h.next →
        (sliceAppend h (.vslice arr2 0 0) x).2.readArr id = h.readArr id := by
  constructor
  · simp [sliceAppend, alloc_next]
  · intro id hid
    simp only [sliceAppend]
    rw [if_neg (by omega)]
    exact alloc_read_old _ _ hid

theorem serializeInto_total (h : SliceHeap) (requests toMap : GVal)
    (attr : DaikinAttribute) (hinv : ReqInv h requests)
    (hwfm : WFReq toMap) :
    ∃ h2, serializeInto h requests toMap attr = some (h2, requests)
      ∧ ReqInv h2 requests ∧ h.next ≤ h2.next := by
  obtain ⟨fields, pcFields, pchArr, hmap, hpc, hpch⟩ := hwfm
  subst hmap
  obtain ⟨h3, arr2, hwalk, hnext3, hpres3⟩ := walkPath_zero attr.path h pchArr
  obtain ⟨hnext4, hpres4⟩ := sliceAppend_zero h3 arr2 attr.format
  refine ⟨(sliceAppend h3 (.vslice arr2 0 0) attr.format).2, ?_, ?_, ?_⟩
  · simp only [serializeInto, hpc, hpch, hwalk]
  · refine ReqInv_mono h _ requests hinv (by omega) ?_
    intro id hid
    rw [hpres4 id (by omega), hpres3 id hid]
  · omega

theorem serializeStep_total (h : SliceHeap) (requests : GVal)
    (attr : DaikinAttribute) (hinv : ReqInv h requests) :
    ∃ h2 requests2, serializeStep h requests attr = some (h2, requests2)
      ∧ ReqInv h2 requests2 := by
  cases hfound : getExistingTo attr.toEp (readSlice h requests) with
  | some toMap =>
    have hwfm : WFReq toMap := by
      obtain ⟨arr, len, cap, hreq, harr, hlen, hlc, hwf⟩ := hinv
      apply hwf
      have hm := getExistingTo_mem _ _ _ hfound
      rw [hreq] at hm
      exact List.mem_of_mem_take (by simpa [readSlice] using hm)
    obtain ⟨h2, hinto, hinv2, hmono⟩ :=
      serializeInto_total h requests toMap attr hinv hwfm
    refine ⟨h2, requests, ?_, hinv2⟩
    simp only [serializeStep, hfound]
    exact hinto
  | none =>
    have hA : newEmptySlice h = (GVal.vslice h.next 0 0, (h.alloc []).2) := rfl
    have hinvA : ReqInv (h.alloc []).2 requests := by
      refine ReqInv_mono h _ requests hinv (by simp [alloc_next]) ?_
      intro id hid
      exact alloc_read_old _ _ hid
    have hwfN : WFReq (GVal.vmap
        [("op", .vint 3),
         ("pc", .vmap [("pn", .vstr "dgc_status"),
            ("pch", .vslice h.next 0 0)]),
         ("to", .vstr attr.toEp)]) := by
      refine ⟨_, [("pn", .vstr "dgc_status"), ("pch", .vslice h.next 0 0)],
        h.next, rfl, ?_, ?_⟩ <;> rfl
    obtain ⟨hinvB, hmonoB⟩ := sliceAppend_req (h.alloc []).2 requests _
      hinvA hwfN
    obtain ⟨h2, hinto, hinv2, hmono2⟩ := serializeInto_total
      (sliceAppend (h.alloc []).2 requests (GVal.vmap
        [("op", .vint 3),
         ("pc", .vmap [("pn", .vstr "dgc_status"),
            ("pch", .vslice h.next 0 0)]),
         ("to", .vstr attr.toEp)])).2
      (sliceAppend (h.alloc []).2 requests (GVal.vmap
        [("op", .vint 3),
         ("pc", .vmap [("pn", .vstr "dgc_status"),
            ("pch", .vslice h.next 0 0)]),
         ("to", .vstr attr.toEp)])).1
      (GVal.vmap
        [("op", .vint 3),
         ("pc", .vmap [("pn", .vstr "dgc_status"),
            ("pch", .vslice h.next 0 0)]),
         ("to", .vstr attr.toEp)])
      attr hinvB hwfN
    refine ⟨h2, _, ?_, hinv2⟩
    simp only [serializeStep, hfound, hA]
    exact hinto

/-- The invariant holds at Serialize's entry state (nil payload: a fresh
empty requests slice). -/
theorem reqInv_init :
    ReqInv (newEmptySlice { arrs := [], next := 0 }).2
      (newEmptySlice { arrs := [], next := 0 }).1 := by
  refine ⟨0, 0, 0, rfl, by decide, rfl, by omega, ?_⟩
  intro r hr
  simp [SliceHeap.readArr, newEmptySlice, SliceHeap.alloc, hset,
    hlookup] at hr

theorem serialize_fold_total (attrs : List DaikinAttribute) :
    ∀ (h : SliceHeap) (requests : GVal), ReqInv h requests →
      ∃ st, attrs.foldlM (fun st attr => serializeStep st.1 st.2 attr)
          (h, requests) = some st ∧ ReqInv st.1 st.2 := by
  induction attrs with
  | nil =>
    intro h requests hinv
    exact ⟨(h, requests), rfl, hinv⟩
  | cons attr t ih =>
    intro h requests hinv
    obtain ⟨h2, requests2, hstep, hinv2⟩ :=
      serializeStep_total h requests attr hinv
    obtain ⟨st, hfold, hinvst⟩ := ih h2 requests2 hinv2
    refine ⟨st, ?_, hinvst⟩
    simp only [List.foldlM_cons, hstep, Option.bind_some]
    exact hfold

/-- Serialize (as called with a nil payload) never panics: every attribute
list serializes to some payload. -/
theorem serializePayload_total (attrs : List DaikinAttribute) :
    ∃ hp, serializePayload attrs = some hp := by
  obtain ⟨st, hfold, _⟩ := serialize_fold_total attrs
    (newEmptySlice { arrs := [], next := 0 }).2
    (newEmptySlice { arrs := [], next := 0 }).1 reqInv_init
  refine ⟨(st.1, GVal.vmap [("requests", st.2)]), ?_⟩
  simp only [serializePayload, hfold]
  rfl

/-! ## BRP084 command path (DaikinBRP084.Set / updateSettings and the
setting handlers) -/

/-- API_PATHS power entry. -/
def apiPowerPath : List String :=
  ["/dsiot/edge/adr_0100.dgc_status", "dgc_status", "e_1002", "e_A002",
   "p_01"]

/-- API_PATHS mode entry. -/
def apiModePath : List String :=
  ["/dsiot/edge/adr_0100.dgc_status", "dgc_status", "e_1002", "e_3001",
   "p_01"]

/-- API_PATHS temp_settings entries. -/
def apiTempSettings : List (String × List String) :=
  [ ("cool", ["/dsiot/edge/adr_0100.dgc_status", "dgc_status", "e_1002",
      "e_3001", "p_02"]),
    ("heat", ["/dsiot/edge/adr_0100.dgc_status", "dgc_status", "e_1002",
      "e_3001", "p_03"]),
    ("auto", ["/dsiot/edge/adr_0100.dgc_status", "dgc_status", "e_1002",
      "e_3001", "p_1D"]) ]

/-- API_PATHS fan_settings entries. -/
def apiFanSettings : List (String × List String) :=
  [ ("auto", ["/dsiot/edge/adr_0100.dgc_status", "dgc_status", "e_1002",
      "e_3001", "p_26"]),
    ("cool", ["/dsiot/edge/adr_0100.dgc_status", "dgc_status", "e_1002",
      "e_3001", "p_09"]),
    ("heat", ["/dsiot/edge/adr_0100.dgc_status", "dgc_status", "e_1002",
      "e_3001", "p_0A"]),
    ("fan", ["/dsiot/edge/adr_0100.dgc_status", "dgc_status", "e_1002",
      "e_3001", "p_28"]) ]

/-- REVERSE_MODE_MAP, the init()-time inversion of MODE_MAP (injective, so
independent of Go map iteration order). -/
def reverseModeMap : List (String × String) :=
  [("auto", "0300"), ("cool", "0200"), ("heat", "0100"), ("fan", "0000"),
   ("dry", "0500")]

/-- REVERSE_FAN_MODE_MAP, the init()-time inversion of FAN_MODE_MAP. -/
def reverseFanModeMap : List (String × String) :=
  [("auto", "0A00"), ("quiet", "0B00"), ("1", "0300"), ("2", "0400"),
   ("3", "0500"), ("4", "0600"), ("5", "0700")]

/-- addRequest (DaikinBRP084): builds a DaikinAttribute from a flat API
path — name is the last segment, the branch path is segments 2-3, the
endpoint is segment 0. Every call site passes one of the concrete 5-segment
paths above, so the defaults for an empty list are never taken. -/
def addRequest (requests : List DaikinAttribute) (path : List String)
    (value : String) : List DaikinAttribute :=
  requests ++ [{ name := (path.getLast?).getD "", value := value,
                 path := (path.drop 2).take 2, toEp := path.headI }]

/-- Digit run parser used below (empty runs read as 0, matching the 0 that
Go's error-ignoring call sites end up with). -/
def parseNatDigitsAux : List Char → Nat → Option Nat
  | [], acc => some acc
  | c :: t, acc =>
    if '0' ≤ c ∧ c ≤ '9' then
      parseNatDigitsAux t (10 * acc + (c.toNat - 48))
    else none

/-- strconv.ParseFloat with the error ignored, as the temperature handler
calls it: plain decimal strings parse exactly (modelled as rationals, exact
at the half-degree granularity the protocol uses), anything else yields 0. -/
def parseDecimalOr0 (s : String) : Rat :=
  let signed : Bool × List Char :=
    match s.data with
    | '-' :: r => (true, r)
    | '+' :: r => (false, r)
    | r => (false, r)
  let mag : Rat :=
    match splitFirst signed.2 '.' with
    | none =>
      match parseNatDigitsAux signed.2 0 with
      | some n => (n : Rat)
      | none => 0
    | some (ip, fp) =>
      match parseNatDigitsAux ip 0, parseNatDigitsAux fp 0 with
      | some i, some f => (i : Rat) + (f : Rat) / ((10 : Rat) ^ fp.length)
      | _, _ => 0
  if signed.1 then -mag else mag

/-- Go `int(x)`: truncation toward zero. -/
def truncInt (q : Rat) : Int :=
  if q < 0 then -((-q).floor) else q.floor

/-- fmt.Sprintf("%02x", n): lowercase hexadecimal, zero-padded to width 2. -/
def sprintfHex02 (n : Int) : String :=
  let digits := String.mk (Nat.toDigits 16 n.natAbs)
  let sign := if n < 0 then "-" else ""
  if sign.length + digits.length < 2 then sign ++ "0" ++ digits
  else sign ++ digits

/-- tempToHex (DaikinBRP084). -/
def tempToHex (temperature : Rat) (divisor : Int) : String :=
  sprintfHex02 (truncInt (temperature * (divisor : Rat)))

/-- handlePowerSetting: a mode setting always writes the power leaf (00 for
off, 01 otherwise) and, for a recognized on-mode, the mode leaf. -/
def handlePowerSetting (settings : List (String × String))
    (requests : List DaikinAttribute) : List DaikinAttribute :=
  match alookup settings "mode" with
  | some mode =>
    if mode = "off" then addRequest requests apiPowerPath "00"
    else
      let r1 := addRequest requests apiPowerPath "01"
      match alookup reverseModeMap mode with
      | some modeValue => addRequest r1 apiModePath modeValue
      | none => r1
  | none => requests

/-- handleTemperatureSetting: writes the mode-specific target-temperature
leaf; the mode is read from the store through the invalidating Get. -/
def handleTemperatureSetting (v : Values)
    (settings : List (String × String))
    (requests : List DaikinAttribute) : Values × List DaikinAttribute :=
  match alookup settings "stemp" with
  | some stemp =>
    let g := v.get "mode"
    let mode := g.1.getD ""
    if mode ≠ "" then
      match alookup apiTempSettings mode with
      | some tempPath =>
        (g.2, addRequest requests tempPath
          (tempToHex (parseDecimalOr0 stemp) 2))
      | none => (g.2, requests)
    else (g.2, requests)
  | none => (v, requests)

/-- handleFanSetting: writes the mode-specific fan-rate leaf for a
recognized fan value. -/
def handleFanSetting (v : Values) (settings : List (String × String))
    (requests : List DaikinAttribute) : Values × List DaikinAttribute :=
  match alookup settings "f_rate" with
  | some fRate =>
    let g := v.get "mode"
    let mode := g.1.getD ""
    if mode ≠ "" then
      match alookup apiFanSettings mode with
      | some fanPath =>
        match alookup reverseFanModeMap fRate with
        | some fanValue => (g.2, addRequest requests fanPath fanValue)
        | none => (g.2, requests)
      | none => (g.2, requests)
    else (g.2, requests)
  | none => (v, requests)

/-- handleSwingSetting: writes both axis leaves; an unrecognized direction
still writes both leaves with empty values (the Go switch has no default
and the zero-value strings are sent). -/
def handleSwingSetting (v : Values) (settings : List (String × String))
    (requests : List DaikinAttribute) : Values × List DaikinAttribute :=
  match alookup settings "f_dir" with
  | some fDir =>
    let g := v.get "mode"
    let mode := g.1.getD ""
    if mode ≠ "" then
      match alookup swingSettingsApi mode with
      | some paths =>
        let axes : String × String :=
          if fDir = "off" then ("000000", "000000")
          else if fDir = "vertical" then ("0F0000", "000000")
          else if fDir = "horizontal" then ("000000", "0F0000")
          else if fDir = "both" ∨ fDir = "3d" then ("0F0000", "0F0000")
          else ("", "")
        (g.2, addRequest (addRequest requests paths.1 axes.1) paths.2
          axes.2)
      | none => (g.2, requests)
    else (g.2, requests)
  | none => (v, requests)

/-- updateSettings (DaikinBRP084): writes the requested settings into the
local store — mode off sets pow 0, any other mode sets pow 1 and the mode,
every other key is written directly. Always succeeds. `settings` is a Go
map; the list fixes one iteration order. -/
def updateSettingsBRP084 (v : Values)
    (settings : List (String × String)) : Values :=
  settings.foldl (fun acc e =>
    if e.1 = "mode" ∧ e.2 = "off" then acc.set "pow" "0"
    else if e.1 = "mode" then (acc.set "pow" "1").set "mode" e.2
    else acc.set e.1 e.2) v

/-- Result of DaikinBRP084.Set: final store and the returned error. -/
structure SetOutcome where
  store : Values
  result : Option DaikinErr

/-- DaikinBRP084.Set: update the local store first, build the attribute
writes, and only then serialize and send them; a transport failure returns
the error with no rollback; on success the status refresh
(`d.UpdateStatus`, a fresh network exchange abstracted as
`updateStatusAfter`) runs. `none` is a Serialize panic. -/
def brp084Set (v : Values) (settings : List (String × String))
    (netWrite : GVal → Except DaikinErr JVal)
    (updateStatusAfter : Values → Values × Option DaikinErr) :
    Option SetOutcome :=
  let v1 := updateSettingsBRP084 v settings
  let r1 := handlePowerSetting settings []
  let res2 := handleTemperatureSetting v1 settings r1
  let res3 := handleFanSetting res2.1 settings res2.2
  let res4 := handleSwingSetting res3.1 settings res3.2
  if res4.2.isEmpty then some { store := res4.1, result := none }
  else
    match serializePayload res4.2 with
    | some hp =>
      match netWrite hp.2 with
      | .error e2 => some { store := res4.1, result := some e2 }
      | .ok _ =>
        let upd := updateStatusAfter res4.1
        some { store := upd.1, result := upd.2 }
    | none => none

theorem get_keeps_data (v : Values) (k : String) :
    ((v.get k).2).data = v.data :=
  (getWithInvalidation_keeps_data v k true).1

theorem handleTemperatureSetting_spec (v : Values)
    (settings : List (String × String)) (r : List DaikinAttribute) :
    (∃ t, (handleTemperatureSetting v settings r).2 = r ++ t)
      ∧ (handleTemperatureSetting v settings r).1.data = v.data := by
  cases hstemp : alookup settings "stemp" with
  | none =>
    simp only [handleTemperatureSetting, hstemp]
    exact ⟨⟨[], by simp⟩, by simp⟩
  | some stemp =>
    simp only [handleTemperatureSetting, hstemp]
    by_cases hm : ((v.get "mode").1.getD "") ≠ ""
    · rw [if_pos hm]
      cases hpath : alookup apiTempSettings ((v.get "mode").1.getD "") with
      | none => exact ⟨⟨[], by simp⟩, get_keeps_data v "mode"⟩
      | some tp => exact ⟨⟨_, rfl⟩, get_keeps_data v "mode"⟩
    · rw [if_neg hm]
      exact ⟨⟨[], by simp⟩, get_keeps_data v "mode"⟩

theorem handleFanSetting_spec (v : Values)
    (settings : List (String × String)) (r : List DaikinAttribute) :
    (∃ t, (handleFanSetting v settings r).2 = r ++ t)
      ∧ (handleFanSetting v settings r).1.data = v.data := by
  cases hfr : alookup settings "f_rate" with
  | none =>
    simp only [handleFanSetting, hfr]
    exact ⟨⟨[], by simp⟩, by simp⟩
  | some fRate =>
    simp only [handleFanSetting, hfr]
    by_cases hm : ((v.get "mode").1.getD "") ≠ ""
    · rw [if_pos hm]
      cases hpath : alookup apiFanSettings ((v.get "mode").1.getD "") with
      | none => exact ⟨⟨[], by simp⟩, get_keeps_data v "mode"⟩
      | some fp =>
        cases hfv : alookup reverseFanModeMap fRate with
        | none => exact ⟨⟨[], by simp⟩, get_keeps_data v "mode"⟩
        | some fv => exact ⟨⟨_, rfl⟩, get_keeps_data v "mode"⟩
    · rw [if_neg hm]
      exact ⟨⟨[], by simp⟩, get_keeps_data v "mode"⟩

theorem handleSwingSetting_spec (v : Values)
    (settings : List (String × String)) (r : List DaikinAttribute) :
    (∃ t, (handleSwingSetting v settings r).2 = r ++ t)
      ∧ (handleSwingSetting v settings r).1.data = v.data := by
  cases hfd : alookup settings "f_dir" with
  | none =>
    simp only [handleSwingSetting, hfd]
    exact ⟨⟨[], by simp⟩, by simp⟩
  | some fDir =>
    simp only [handleSwingSetting, hfd]
    by_cases hm : ((v.get "mode").1.getD "") ≠ ""
    · rw [if_pos hm]
      cases hpath : alookup swingSettingsApi ((v.get "mode").1.getD "") with
      | none => exact ⟨⟨[], by simp⟩, get_keeps_data v "mode"⟩
      | some paths =>
        exact ⟨_, List.append_assoc r _ _⟩ |> fun h => ⟨h, get_keeps_data v "mode"⟩
    · rw [if_neg hm]
      exact ⟨⟨[], by simp⟩, get_keeps_data v "mode"⟩

theorem handlePowerSetting_ne_nil (settings : List (String × String))
    (m : String) (hmode : alookup settings "mode" = some m) :
    handlePowerSetting settings [] ≠ [] := by
  simp only [handlePowerSetting, hmode]
  by_cases hoff : m = "off"
  · rw [if_pos hoff]; simp [addRequest]
  · rw [if_neg hoff]
    cases hrv : alookup reverseModeMap m with
    | none => simp [addRequest]
    | some mv => simp [addRequest]

theorem updateSettingsBRP084_cons (w : Values) (e : String × String)
    (t : List (String × String)) :
    updateSettingsBRP084 w (e :: t)
      = updateSettingsBRP084
          (if e.1 = "mode" ∧ e.2 = "off" then w.set "pow" "0"
           else if e.1 = "mode" then (w.set "pow" "1").set "mode" e.2
           else w.set e.1 e.2) t := rfl

theorem updateSettings_not_mem (l : List (String × String)) :
    ∀ (w : Values) (k : String), k ∉ l.map Prod.fst → k ≠ "mode" →
      k ≠ "pow" →
      alookup (updateSettingsBRP084 w l).data k = alookup w.data k := by
  induction l with
  | nil => intro w k _ _ _; rfl
  | cons e t ih =>
    intro w k hk hkm hkp
    rw [List.map_cons] at hk
    have hk1 : k ≠ e.1 := fun h => hk (h ▸ List.mem_cons_self _ _)
    have hk2 : k ∉ t.map Prod.fst := fun h => hk (List.mem_cons_of_mem _ h)
    rw [updateSettingsBRP084_cons, ih _ k hk2 hkm hkp]
    by_cases h1 : e.1 = "mode" ∧ e.2 = "off"
    · rw [if_pos h1]
      exact alookup_ainsert_ne _ _ hkp
    · rw [if_neg h1]
      by_cases h2 : e.1 = "mode"
      · rw [if_pos h2]
        show alookup (ainsert (ainsert w.data "pow" "1") "mode" e.2) k = _
        rw [alookup_ainsert_ne _ _ hkm, alookup_ainsert_ne _ _ hkp]
      · rw [if_neg h2]
        exact alookup_ainsert_ne _ _ hk1

theorem updateSettings_mem (l : List (String × String)) :
    ∀ (w : Values) (k val : String), (l.map Prod.fst).Nodup →
      (k, val) ∈ l → k ≠ "mode" → k ≠ "pow" →
      alookup (updateSettingsBRP084 w l).data k = some val := by
  induction l with
  | nil => intro w k val _ hmem; simp at hmem
  | cons e t ih =>
    intro w k val hnd hmem hkm hkp
    rw [List.map_cons, List.nodup_cons] at hnd
    rcases List.mem_cons.mp hmem with heq | hmem2
    · subst heq
      have hstep : (if k = "mode" ∧ val = "off" then w.set "pow" "0"
          else if k = "mode" then (w.set "pow" "1").set "mode" val
          else w.set k val) = w.set k val := by
        rw [if_neg (fun h => hkm h.1), if_neg hkm]
      rw [updateSettingsBRP084_cons, hstep,
        updateSettings_not_mem t _ k hnd.1 hkm hkp]
      exact alookup_ainsert_self _ _ _
    · rw [updateSettingsBRP084_cons]
      exact ih _ k val hnd.2 hmem2 hkm hkp

/-- C9: Set on the tree-protocol adapter writes the requested settings into
the local store before issuing the network write; when the write fails, Set
returns that error and the store still holds the post-updateSettings state
— no rollback — and in particular every plain setting key reads back the
written value. -/
theorem C9_set_no_rollback (v : Values) (settings : List (String × String))
    (netWrite : GVal → Except DaikinErr JVal)
    (updateStatusAfter : Values → Values × Option DaikinErr)
    (e : DaikinErr) (m : String)
    (hmode : alookup settings "mode" = some m)
    (hfail : ∀ p, netWrite p = .error e) :
    ∃ out, brp084Set v settings netWrite updateStatusAfter = some out
      ∧ out.result = some e
      ∧ out.store.data = (updateSettingsBRP084 v settings).data
      ∧ (∀ k val, (settings.map Prod.fst).Nodup → (k, val) ∈ settings →
          k ≠ "mode" → k ≠ "pow" →
          alookup out.store.data k = some val) := by
  simp only [brp084Set]
  set v1 := updateSettingsBRP084 v settings with hv1
  set r1 := handlePowerSetting settings [] with hr1
  set res2 := handleTemperatureSetting v1 settings r1 with hres2
  set res3 := handleFanSetting res2.1 settings res2.2 with hres3
  set res4 := handleSwingSetting res3.1 settings res3.2 with hres4
  obtain ⟨⟨t2, ht2⟩, hd2⟩ := handleTemperatureSetting_spec v1 settings r1
  obtain ⟨⟨t3, ht3⟩, hd3⟩ := handleFanSetting_spec res2.1 settings res2.2
  obtain ⟨⟨t4, ht4⟩, hd4⟩ := handleSwingSetting_spec res3.1 settings res3.2
  have hne : res4.2 ≠ [] := by
    rw [hres4, ht4, hres3, ht3, hres2, ht2]
    intro hcon
    rcases List.append_eq_nil.mp hcon with ⟨hcon2, -⟩
    rcases List.append_eq_nil.mp hcon2 with ⟨hcon3, -⟩
    rcases List.append_eq_nil.mp hcon3 with ⟨hcon4, -⟩
    exact handlePowerSetting_ne_nil settings m hmode hcon4
  have hempty : res4.2.isEmpty = false := by
    cases hcase : res4.2 with
    | nil => exact absurd hcase hne
    | cons a t => rfl
  obtain ⟨hp, hser⟩ := serializePayload_total res4.2
  have hdata : res4.1.data = v1.data := by
    rw [hres4, hd4, hres3, hd3, hres2, hd2]
  refine ⟨{ store := res4.1, result := some e }, ?_, rfl, hdata, ?_⟩
  · rw [hempty, hser]
    simp only [Bool.false_eq_true, if_false, hfail]
  · intro k val hnd hmem hkm hkp
    rw [hdata, hv1]
    exact updateSettings_mem settings v k val hnd hmem hkm hkp

/-- C9 witness: a failing network write on Set({mode: cool}) leaves the
store holding the new mode and power values while the error is returned. -/
theorem C9_set_no_rollback_witness :
    (alookup [("mode", "cool")] "mode" = some "cool"
      ∧ ∀ p : GVal,
        (fun (_ : GVal) =>
          (Except.error DaikinErr.connection : Except DaikinErr JVal)) p
          = .error DaikinErr.connection)
    ∧ (∃ out, brp084Set newValues [("mode", "cool")]
          (fun _ => .error DaikinErr.connection)
          (fun w => (w, none)) = some out
        ∧ out.result = some DaikinErr.connection
        ∧ out.store.data
            = (updateSettingsBRP084 newValues [("mode", "cool")]).data
        ∧ (∀ k val, (([("mode", "cool")].map
              (Prod.fst (α := String) (β := String))).Nodup) →
            (k, val) ∈ [("mode", "cool")] → k ≠ "mode" → k ≠ "pow" →
            alookup out.store.data k = some val)) :=
  ⟨⟨rfl, fun _ => rfl⟩,
    C9_set_no_rollback newValues [("mode", "cool")]
      (fun _ => .error DaikinErr.connection) (fun w => (w, none))
      DaikinErr.connection "cool" rfl (fun _ => rfl)⟩

/-! ## Device factory (CreateDaikinDevice, factory.go)

Port selection only rewrites base URLs (transport configuration outside the
detection logic), so the address is not part of the model; the credential
configuration and the outcome of each network interaction are. Each probe
or initialization outcome carries the store contents the adapter's Values
container holds afterwards. -/

/-- Credential configuration (Config in godaikin.go, filled by options). -/
structure FactoryConfig where
  password : String
  key : String
  uuid : String

/-- A constructed adapter, tagged with its dynamic Go type and carrying its
attribute store. -/
inductive Device where
  | skyfi (store : Values)
  | brp072c (store : Values)
  | brp084 (store : Values)
  | brp069 (store : Values)
  | airbase (store : Values)

/-- Errors the factory returns. -/
inductive FactoryErr where
  | initFailed (e : DaikinErr)
  | notSupported
  deriving Repr, DecidableEq

/-- Network interactions the factory can issue. -/
inductive FactoryAction where
  | skyfiInit
  | brp072cInit
  | brp084Probe
  | brp069Probe
  | brp069Init
  | airbaseInit
  deriving Repr, DecidableEq

/-- Outcome of every network interaction the factory might perform. -/
structure FactoryWorld where
  skyfiInit : Except DaikinErr Values
  brp072cInit : Except DaikinErr Values
  brp084Update : Except DaikinErr Values
  brp069Probe : Except DaikinErr Values
  brp069Init : Except DaikinErr Values
  airbaseInit : Except DaikinErr Values

/-- DaikinBRP084.GetMode: power 0 is off; otherwise the cached mode, or
`unknown` when none is cached. Reads are invalidating Gets. -/
def brp084GetMode (v : Values) : String × Values :=
  let g := v.get "pow"
  if g.1.getD "" = "0" then ("off", g.2)
  else
    let g2 := g.2.get "mode"
    match g2.1 with
    | some mode => (mode, g2.2)
    | none => ("unknown", g2.2)

/-- BaseAppliance.GetMode (the method the AirBase adapter inherits):
power 0 is off; otherwise the cached mode decoded through the class's
translation table, or `unknown` when none is cached. -/
def baseGetMode (tr : DeviceTranslations) (v : Values) : String × Values :=
  let g := v.get "pow"
  if g.1.isSome ∧ g.1.getD "" = "0" then ("off", g.2)
  else
    let g2 := g.2.get "mode"
    match g2.1 with
    | some mode => (translateValue tr "mode" mode, g2.2)
    | none => ("unknown", g2.2)

/-- Go type assertion `device.(*BaseAppliance)`: it succeeds only when the
dynamic type is exactly `*BaseAppliance`. The factory only ever holds
concrete adapter types (`*DaikinBRP084` and friends, which embed
`*BaseAppliance` but are distinct types), so the assertion always fails. -/
def asBaseAppliance (_ : Device) : Option Values := none

/-- AirBase fallback branch of CreateDaikinDevice: full Init, then the
device is rejected when GetMode comes back empty. -/
def tryAirBaseBranch (w : FactoryWorld) (acts : List FactoryAction) :
    (Except FactoryErr Device) × List FactoryAction :=
  match w.airbaseInit with
  | .ok store =>
    let g := baseGetMode airbaseTranslations store
    if g.1 = "" then (.error .notSupported, acts ++ [.airbaseInit])
    else (.ok (.airbase g.2), acts ++ [.airbaseInit])
  | .error e => (.error (.initFailed e), acts ++ [.airbaseInit])

/-- BRP069 probe branch of CreateDaikinDevice (tryBRP069Device): one
well-known resource fetch; empty or failed means fall through to AirBase,
otherwise full initialization (whose failure also falls through). -/
def tryBRP069Branch (w : FactoryWorld) (acts : List FactoryAction) :
    (Except FactoryErr Device) × List FactoryAction :=
  match w.brp069Probe with
  | .ok store =>
    if store.len = 0 then tryAirBaseBranch w (acts ++ [.brp069Probe])
    else
      match w.brp069Init with
      | .ok store2 =>
        (.ok (.brp069 store2), acts ++ [.brp069Probe, .brp069Init])
      | .error _ => tryAirBaseBranch w (acts ++ [.brp069Probe, .brp069Init])
  | .error _ => tryAirBaseBranch w (acts ++ [.brp069Probe])

/-- CreateDaikinDevice (factory.go): password → SkyFi, terminal; key →
BRP072C, terminal; else probe BRP084, then BRP069, then AirBase. After a
successful BRP084 probe whose mode reads empty or unknown, the factory
tries to force-seed mode/power through a `*BaseAppliance` type assertion —
which never succeeds (dead code), mirrored here through
`asBaseAppliance`. -/
def createDaikinDevice (cfg : FactoryConfig) (w : FactoryWorld) :
    (Except FactoryErr Device) × List FactoryAction :=
  if cfg.password ≠ "" then
    match w.skyfiInit with
    | .ok store => (.ok (.skyfi store), [.skyfiInit])
    | .error e => (.error (.initFailed e), [.skyfiInit])
  else if cfg.key ≠ "" then
    match w.brp072cInit with
    | .ok store => (.ok (.brp072c store), [.brp072cInit])
    | .error e => (.error (.initFailed e), [.brp072cInit])
  else
    match w.brp084Update with
    | .ok store =>
      if store.len = 0 then tryBRP069Branch w [.brp084Probe]
      else
        let g := brp084GetMode store
        let device := Device.brp084 g.2
        if g.1 = "" ∨ g.1 = "unknown" then
          match asBaseAppliance device with
          | some base =>
            (.ok (.brp084 ((base.set "mode" "off").set "pow" "0")),
              [.brp084Probe])
          | none => (.ok device, [.brp084Probe])
        else (.ok device, [.brp084Probe])
    | .error _ => tryBRP069Branch w [.brp084Probe]

/-- C5: with a password credential the factory performs exactly the SkyFi
initialization — no tree-protocol, legacy or fallback probe, whatever the
world would answer — returning the SkyFi adapter on success and the
initialization error (not a fallback) on failure. -/
theorem C5_password_is_terminal (cfg : FactoryConfig) (w : FactoryWorld)
    (hpw : cfg.password ≠ "") :
    ((createDaikinDevice cfg w).2 = [FactoryAction.skyfiInit])
    ∧ (∀ store, w.skyfiInit = .ok store →
        (createDaikinDevice cfg w).1 = .ok (Device.skyfi store))
    ∧ (∀ e, w.skyfiInit = .error e →
        (createDaikinDevice cfg w).1 = .error (.initFailed e)) := by
  refine ⟨?_, ?_, ?_⟩
  · simp only [createDaikinDevice, if_pos hpw]
    cases w.skyfiInit <;> rfl
  · intro store hs
    simp only [createDaikinDevice, if_pos hpw, hs]
  · intro e hs
    simp only [createDaikinDevice, if_pos hpw, hs]

/-- C5 witness: concrete worlds for the success and failure cases. -/
theorem C5_password_is_terminal_witness :
    (("secret" : String) ≠ ""
      ∧ (createDaikinDevice ⟨"secret", "", ""⟩
          { skyfiInit := .ok (newValues.set "mode" "cool")
            brp072cInit := .error .connection
            brp084Update := .ok (newValues.set "mode" "cool")
            brp069Probe := .ok (newValues.set "mode" "cool")
            brp069Init := .error .connection
            airbaseInit := .error .connection }).2
        = [FactoryAction.skyfiInit])
    ∧ (createDaikinDevice ⟨"secret", "", ""⟩
          { skyfiInit := .error .authentication
            brp072cInit := .error .connection
            brp084Update := .ok (newValues.set "mode" "cool")
            brp069Probe := .error .connection
            brp069Init := .error .connection
            airbaseInit := .error .connection }).1
        = .error (.initFailed .authentication) := by
  constructor
  · exact ⟨by decide,
      (C5_password_is_terminal ⟨"secret", "", ""⟩ _ (by decide)).1⟩
  · exact (C5_password_is_terminal ⟨"secret", "", ""⟩ _ (by decide)).2.2
      .authentication rfl

/-- A store as the BRP084 probe produces it when the response carries
neither a power nor a mode node: UpdateStatus still seeds the humidity,
target temperature, fan and swing placeholders, so the probe succeeds. -/
def c3Store : Values :=
  { data := [("hhum", "--"), ("stemp", "--"), ("f_rate", "auto"),
      ("f_dir", "off")]
    lastUpdateByResource := [], resourceByKey := []
    ttl := 15 * 60 * 1000000000 }

def c3World : FactoryWorld :=
  { skyfiInit := .error .connection
    brp072cInit := .error .connection
    brp084Update := .ok c3Store
    brp069Probe := .error .connection
    brp069Init := .error .connection
    airbaseInit := .error .connection }

/-- C3: when credential-less detection succeeds on the tree-protocol probe
but no operating mode was decoded, the returned adapter still reports
`unknown` and neither `mode = "off"` nor `pow = "0"` was seeded: the
force-seeding block is dead code, because the `*BaseAppliance` type
assertion on a `*DaikinBRP084` always fails. -/
theorem C3_mode_seed_never_runs :
    ∃ store,
      (createDaikinDevice ⟨"", "", ""⟩ c3World).1
          = .ok (Device.brp084 store)
        ∧ (brp084GetMode store).1 = "unknown"
        ∧ alookup store.data "mode" = none
        ∧ alookup store.data "pow" = none :=
  ⟨(brp084GetMode c3Store).2, rfl, rfl, rfl, rfl⟩

end Godaikin
